import Mathlib

/-!
Verification development for the invoice OCR extraction-and-reconciliation
pipeline (`full.py`, `custom_ocr.py`).

The Python source is shallowly embedded: pure functions become Lean functions
over `List Char` / `String`, Python floats and ints are modelled as rationals
(`ℚ`), fallible steps return `Except`/`Option`, and the two external
collaborators (the reasoning service and the reference-code data store) are
explicit parameters.  The source's `re` regular-expression cascades are
executed by a small backtracking engine (`reMatches`) that realises exactly
the constructs the source's patterns use, with Python's leftmost /
greedy-preference semantics.
-/

set_option maxRecDepth 8000

namespace OcrTrans

/-- Python whitespace as matched by the `\s` class and `str.strip()`
(ASCII subset; the texts handled here contain only space, tab, newline, CR). -/
def isPySpace (c : Char) : Bool :=
  c = ' ' ∨ c = '\t' ∨ c = '\n' ∨ c = '\r' ∨ c = '\x0b' ∨ c = '\x0c'

def isDigitCh (c : Char) : Bool := '0' ≤ c ∧ c ≤ '9'

/-- Case folding used to realise `re.IGNORECASE`: ASCII letters fold to lower
case, plus the accented capitals occurring in the source's patterns. -/
def chFold (c : Char) : Char :=
  if 'A' ≤ c ∧ c ≤ 'Z' then Char.ofNat (c.toNat + 32)
  else if c = 'À' then 'à'
  else if c = 'É' then 'é'
  else if c = 'È' then 'è'
  else if c = 'Ê' then 'ê'
  else c

/-- Regular-expression syntax covering exactly the constructs used by the
source's patterns: case-insensitive literals (`lit`, for the patterns applied
with `re.IGNORECASE`), case-sensitive literals (`litc`), character classes,
sequencing, alternation, greedy/lazy counted repetition, capture groups,
lookahead `(?=...)`, and the non-MULTILINE `$` anchor. -/
inductive RE where
  | eps
  | lit (c : Char)
  | litc (c : Char)
  | cls (p : Char → Bool)
  | seq (a b : RE)
  | alt (a b : RE)
  | rep (a : RE) (lo : Nat) (hi : Option Nat) (lazy : Bool)
  | grp (n : Nat) (a : RE)
  | look (a : RE)
  | eol

abbrev Groups := List (Nat × List Char)

def setGroup (g : Groups) (n : Nat) (v : List Char) : Groups :=
  (n, v) :: g.filter (fun p => p.1 ≠ n)

def getGroup (g : Groups) (n : Nat) : List Char :=
  match g.find? (fun p => p.1 = n) with
  | some p => p.2
  | none => []

def decOpt (o : Option Nat) : Option Nat := o.map (· - 1)

/-- All ways the pattern can match a prefix of `s`, each as (remaining suffix,
captured groups), in Python's backtracking preference order (alternation
left-first, greedy repetition longest-first, lazy shortest-first).  The head of
the list is the match Python's engine returns.  `fuel` bounds the recursion
depth and is always supplied far larger than any pattern here can consume, so
the out-of-fuel branch is never reached on the inputs evaluated here. -/
def reMatches : Nat → RE → List Char → Groups → List (List Char × Groups)
  | 0, _, _, _ => []
  | fuel + 1, re, s, g =>
      match re with
      | .eps => [(s, g)]
      | .lit c =>
          match s with
          | [] => []
          | x :: xs => if chFold x = chFold c then [(xs, g)] else []
      | .litc c =>
          match s with
          | [] => []
          | x :: xs => if x = c then [(xs, g)] else []
      | .cls p =>
          match s with
          | [] => []
          | x :: xs => if p (chFold x) then [(xs, g)] else []
      | .seq a b =>
          (reMatches fuel a s g).flatMap (fun r => reMatches fuel b r.1 r.2)
      | .alt a b => reMatches fuel a s g ++ reMatches fuel b s g
      | .rep a lo hi lz =>
          if lo > 0 then
            (reMatches fuel a s g).flatMap
              (fun r => reMatches fuel (.rep a (lo - 1) (decOpt hi) lz) r.1 r.2)
          else if hi = some 0 then [(s, g)]
          else
            let more := (reMatches fuel a s g).flatMap
              (fun r =>
                if r.1.length < s.length then
                  reMatches fuel (.rep a 0 (decOpt hi) lz) r.1 r.2
                else [])
            if lz then (s, g) :: more else more ++ [(s, g)]
      | .grp n a =>
          (reMatches fuel a s g).map
            (fun r => (r.1, setGroup r.2 n (s.take (s.length - r.1.length))))
      | .look a =>
          if (reMatches fuel a s g).isEmpty then [] else [(s, g)]
      | .eol =>
          if s = [] ∨ s = ['\n'] then [(s, g)] else []

def matchFuel (s : List Char) : Nat := 16 * s.length + 256

/-- First match of the pattern anchored at the start of `s`
(Python's preferred match), as (matched chars, remaining suffix, groups). -/
def firstMatchAt (re : RE) (s : List Char) : Option (List Char × List Char × Groups) :=
  match (reMatches (matchFuel s) re s []).head? with
  | none => none
  | some (rest, g) => some (s.take (s.length - rest.length), rest, g)

/-- A `re.sub` replacement template: literal runs and `\N` group references. -/
inductive TmplItem where
  | txt (s : List Char)
  | ref (n : Nat)

abbrev Tmpl := List TmplItem

def renderTmpl (t : Tmpl) (g : Groups) : List Char :=
  t.flatMap (fun item =>
    match item with
    | .txt s => s
    | .ref n => getGroup g n)

/-- `re.sub(pattern, template, s)`: scan left to right, replace each
non-overlapping leftmost match, resume after the match (advancing one
character on an empty match, as Python does). -/
def reSubAux : Nat → RE → Tmpl → List Char → List Char
  | 0, _, _, s => s
  | fuel + 1, re, t, s =>
      match firstMatchAt re s with
      | none =>
          match s with
          | [] => []
          | c :: rest => c :: reSubAux fuel re t rest
      | some (matched, rest, g) =>
          if matched.isEmpty then
            match s with
            | [] => renderTmpl t g
            | c :: rest2 => renderTmpl t g ++ c :: reSubAux fuel re t rest2
          else renderTmpl t g ++ reSubAux fuel re t rest

def reSub (re : RE) (t : Tmpl) (s : List Char) : List Char :=
  reSubAux (s.length + 1) re t s

/-- `re.findall(pattern, s)` for a pattern with capture group 1: the group-1
captures of the non-overlapping leftmost matches, in order. -/
def reFindAllAux : Nat → RE → List Char → List (List Char)
  | 0, _, _ => []
  | fuel + 1, re, s =>
      match firstMatchAt re s with
      | none =>
          match s with
          | [] => []
          | _ :: rest => reFindAllAux fuel re rest
      | some (matched, rest, g) =>
          if matched.isEmpty then
            match s with
            | [] => [getGroup g 1]
            | _ :: rest2 => getGroup g 1 :: reFindAllAux fuel re rest2
          else getGroup g 1 :: reFindAllAux fuel re rest

def reFindAll (re : RE) (s : List Char) : List (List Char) :=
  reFindAllAux (s.length + 1) re s

/-- `re.search(pattern, s) is not None`. -/
def reSearchAux : Nat → RE → List Char → Bool
  | 0, _, _ => false
  | fuel + 1, re, s =>
      match firstMatchAt re s with
      | some _ => true
      | none =>
          match s with
          | [] => false
          | _ :: rest => reSearchAux fuel re rest

def reSearch (re : RE) (s : List Char) : Bool :=
  reSearchAux (s.length + 1) re s

-- Pattern-building helpers.

def rSeq (l : List RE) : RE := l.foldr .seq .eps

/-- A literal word under `re.IGNORECASE`. -/
def rStr (s : String) : RE := rSeq (s.data.map .lit)

/-- A case-sensitive literal word. -/
def rStrC (s : String) : RE := rSeq (s.data.map .litc)

def rAltL (l : List RE) : RE :=
  match l with
  | [] => .eps
  | [x] => x
  | x :: xs => .alt x (rAltL xs)

/-- `\s` -/
def cWS : RE := .cls isPySpace
/-- `\d` / `[0-9]` -/
def cD : RE := .cls isDigitCh
/-- `[,\.]` / `[,.]` -/
def cSep : RE := .cls (fun c => c = ',' ∨ c = '.')
/-- `[:\s]` -/
def cColWS : RE := .cls (fun c => c = ':' ∨ isPySpace c)
/-- `[A-Z]` under IGNORECASE (the subject character arrives folded) -/
def cAZ : RE := .cls (fun c => 'a' ≤ c ∧ c ≤ 'z')
/-- `[A-Z-]` under IGNORECASE -/
def cAZdash : RE := .cls (fun c => ('a' ≤ c ∧ c ≤ 'z') ∨ c = '-')
/-- `[A-Z\s]` under IGNORECASE -/
def cAZws : RE := .cls (fun c => ('a' ≤ c ∧ c ≤ 'z') ∨ isPySpace c)
/-- `[0-9,\.]` -/
def cDsep : RE := .cls (fun c => isDigitCh c ∨ c = ',' ∨ c = '.')
/-- `[\s\S]` (any character, including newline) -/
def cAny : RE := .cls (fun _ => true)
/-- `.` without DOTALL (any character except newline) -/
def cDot : RE := .cls (fun c => c ≠ '\n')
/-- `[ \t]` -/
def cSpTab : RE := .cls (fun c => c = ' ' ∨ c = '\t')

def rPlus (a : RE) : RE := .rep a 1 none false
def rStar (a : RE) : RE := .rep a 0 none false
def rOpt (a : RE) : RE := .rep a 0 (some 1) false
def rRep (a : RE) (lo hi : Nat) : RE := .rep a lo (some hi) false
def rRepMin (a : RE) (lo : Nat) : RE := .rep a lo none false
/-- `+?` / `*?` (lazy) -/
def rStarLazy (a : RE) : RE := .rep a 0 none true
def rPlusLazy (a : RE) : RE := .rep a 1 none true

-- String-level helpers shared by the embedded functions.

/-- Python `str.replace(old, new)`: replace all non-overlapping occurrences,
left to right (`old` is never empty in the source's tables). -/
def strReplaceAux : Nat → List Char → List Char → List Char → List Char
  | 0, _, _, s => s
  | _ + 1, _, _, [] => []
  | fuel + 1, old, new, s@(c :: rest) =>
      if old.isPrefixOf s then new ++ strReplaceAux fuel old new (s.drop old.length)
      else c :: strReplaceAux fuel old new rest

def strReplace (s old new : List Char) : List Char :=
  strReplaceAux (s.length + 1) old new s

/-- Python `str.strip()` (whitespace on both ends). -/
def pyStrip (s : List Char) : List Char :=
  ((s.dropWhile isPySpace).reverse.dropWhile isPySpace).reverse

/-- Python `str.split(sep)` for a single-character separator: keeps empty
pieces, as `"a\n\nb".split('\n') == ['a', '', 'b']`. -/
def splitChar (sep : Char) (s : List Char) : List (List Char) :=
  s.foldr
    (fun c acc =>
      match acc with
      | [] => [[c]]
      | cur :: done => if c = sep then [] :: cur :: done else (c :: cur) :: done)
    [[]]

/-- Python `sub in s` (substring containment). -/
def strContainsAux : Nat → List Char → List Char → Bool
  | 0, _, _ => false
  | _ + 1, sub, [] => sub.isEmpty
  | fuel + 1, sub, s@(_ :: rest) =>
      sub.isPrefixOf s || strContainsAux fuel sub rest

def strContains (s sub : List Char) : Bool :=
  strContainsAux (s.length + 1) sub s

/-- Python `str.upper()` (ASCII letters; accented characters are left as they
are, which is equivalent for every comparison against the ASCII-only
constants performed in the source). -/
def pyUpperCh (c : Char) : Char :=
  if 'a' ≤ c ∧ c ≤ 'z' then Char.ofNat (c.toNat - 32) else c

def pyUpper (s : List Char) : List Char := s.map pyUpperCh

end OcrTrans

namespace OcrTrans

/-! ## Text Structurer: `clean_text` (full.py lines 46-204) -/

/-- The fixed corrupted-sequence replacement table of `clean_text`, applied
with `str.replace` in table order (Python dict insertion order). -/
def cleanReplacements : List (String × String) :=
  [("Num�ro", "Numéro"),
   ("R�f�rence", "Référence"),
   ("D�signation", "Désignation"),
   ("Qt�", "Qté"),
   ("Unit�", "Unité"),
   ("Pi�ce", "Pièce"),
   ("r�glement", "règlement"),
   ("�ch�ance", "échéance"),
   ("Arr�t�e", "Arrêtée"),
   ("pr�sente", "présente"),
   ("�tage", "étage"),
   ("T�l", "Tél"),
   ("Cr�dit", "Crédit"),
   ("p�nalit�", "pénalité"),
   ("d�lais", "délais"),
   ("R�gularit�", "Régularité"),
   ("�", "é"),
   ("TOTAI", "TOTAL"),
   ("TOTALI", "TOTAL"),
   ("TQTAL", "TOTAL"),
   ("Montant TTC", "TOTAL TTC"),
   ("Montant HT", "TOTAL HT")]

/-- `(\s)(WORD)` → `\1\n\2`: the keyword line-break rule shape. -/
def patKeyword (w : String) : RE × Tmpl :=
  (rSeq [.grp 1 cWS, .grp 2 (rStr w)], [.ref 1, .txt ['\n'], .ref 2])

/-- `(\d{1,6}[,\.]\d{2})`, the amount shape shared by several rules. -/
def reAmount16 : RE := rSeq [rRep cD 1 6, cSep, rRep cD 2 2]

/-- `(EUR|DH|MAD|USD|\$)` under IGNORECASE. -/
def reCurrencyTok : RE :=
  rAltL [rStr "EUR", rStr "DH", rStr "MAD", rStr "USD", .lit '$']

/-- The `structure_patterns` list of `clean_text`, in source order; every
entry is applied with `re.sub(..., flags=re.IGNORECASE)`. -/
def structurePatterns : List (RE × Tmpl) :=
  [patKeyword "Facture",
   patKeyword "FACTURE",
   patKeyword "N°",
   patKeyword "Numéro",
   patKeyword "Date",
   patKeyword "Référence",
   patKeyword "INTEGRATEUR",
   patKeyword "Zone Franche",
   patKeyword "I.C.E",
   patKeyword "RC",
   patKeyword "Tél",
   patKeyword "Désignation",
   patKeyword "Qté",
   patKeyword "Unité",
   patKeyword "Prix unitaire",
   patKeyword "Pièce",
   patKeyword "Mètre",
   patKeyword "STRUCTURE-",
   patKeyword "HABILLAGE-",
   patKeyword "PANNEAU-",
   patKeyword "LED-",
   patKeyword "BARDAGE-",
   patKeyword "POSE-",
   patKeyword "TOTAL",
   patKeyword "Total",
   patKeyword "Montant",
   patKeyword "NET À PAYER",
   patKeyword "À PAYER",
   patKeyword "Mode",
   patKeyword "Chèque",
   -- (\d{1,3}[,\.]\d{2,3}[,\.]\d{2}) -> \n\1
   (.grp 1 (rSeq [rRep cD 1 3, cSep, rRep cD 2 3, cSep, rRep cD 2 2]),
    [.txt ['\n'], .ref 1]),
   -- (\d{1,6}[,\.]\d{2})\s*(?=\d{1,6}[,\.]\d{2}) -> \1\n
   (rSeq [.grp 1 reAmount16, rStar cWS, .look reAmount16],
    [.ref 1, .txt ['\n']]),
   -- (\d{1,6}[,\.]\d{2})\s*(EUR|DH|MAD|USD|\$) -> \n\1 \2
   (rSeq [.grp 1 reAmount16, rStar cWS, .grp 2 reCurrencyTok],
    [.txt ['\n'], .ref 1, .txt [' '], .ref 2]),
   -- (EUR|DH|MAD|USD|\$)\s*(\d{1,6}[,\.]\d{2}) -> \n\1 \2
   (rSeq [.grp 1 reCurrencyTok, rStar cWS, .grp 2 reAmount16],
    [.txt ['\n'], .ref 1, .txt [' '], .ref 2]),
   -- (\d{1,2},\d{2})\s+([A-Z][A-Z-]+) -> \1\n\2
   (rSeq [.grp 1 (rSeq [rRep cD 1 2, .lit ',', rRep cD 2 2]), rPlus cWS,
          .grp 2 (rSeq [cAZ, rPlus cAZdash])],
    [.ref 1, .txt ['\n'], .ref 2]),
   -- ([A-Z-]+)\s+([A-Z][A-Z\s]+[0-9]) -> \1\n\2
   (rSeq [.grp 1 (rPlus cAZdash), rPlus cWS,
          .grp 2 (rSeq [cAZ, rPlus cAZws, cD])],
    [.ref 1, .txt ['\n'], .ref 2]),
   -- (\d{2}/\d{2}/\d{4}) -> \n\1
   (.grp 1 (rSeq [rRep cD 2 2, .lit '/', rRep cD 2 2, .lit '/', rRep cD 4 4]),
    [.txt ['\n'], .ref 1]),
   patKeyword "Arrêtée",
   patKeyword "Une pénalité"]

/-- The `item_separation_patterns` list of `clean_text`, in source order;
applied with `re.sub(..., flags=re.IGNORECASE)`. -/
def itemSeparationPatterns : List (RE × Tmpl) :=
  [ -- ([0-9,\.]+)\s+([A-Z][A-Z-]{2,}[-\s]) -> \1\n\2
   (rSeq [.grp 1 (rPlus cDsep), rPlus cWS,
          .grp 2 (rSeq [cAZ, rRepMin cAZdash 2, .cls (fun c => c = '-' ∨ isPySpace c)])],
    [.ref 1, .txt ['\n'], .ref 2]),
   -- ([A-Z-]+\s+[A-Z\s]+)\s+(\d+,?\d*)\s+(Pièce|Mètre) -> \1\n\2 \3
   (rSeq [.grp 1 (rSeq [rPlus cAZdash, rPlus cWS, rPlus cAZws]), rPlus cWS,
          .grp 2 (rSeq [rPlus cD, rOpt (.lit ','), rStar cD]), rPlus cWS,
          .grp 3 (.alt (rStr "Pièce") (rStr "Mètre"))],
    [.ref 1, .txt ['\n'], .ref 2, .txt [' '], .ref 3]),
   -- (Pièce|Mètre)\s+([0-9,\.]+) -> \1\n\2
   (rSeq [.grp 1 (.alt (rStr "Pièce") (rStr "Mètre")), rPlus cWS,
          .grp 2 (rPlus cDsep)],
    [.ref 1, .txt ['\n'], .ref 2]),
   -- ([0-9,\.]{3,})\s+([A-Z]{2,}[-\s]) -> \1\n\2
   (rSeq [.grp 1 (rRepMin cDsep 3), rPlus cWS,
          .grp 2 (rSeq [rRepMin cAZ 2, .cls (fun c => c = '-' ∨ isPySpace c)])],
    [.ref 1, .txt ['\n'], .ref 2]),
   -- ([A-Z-]{4,})\s+([A-Z][A-Z\s]{5,}) -> \1\n\2
   (rSeq [.grp 1 (rRepMin cAZdash 4), rPlus cWS,
          .grp 2 (rSeq [cAZ, rRepMin cAZws 5])],
    [.ref 1, .txt ['\n'], .ref 2]),
   -- (\d+,\d{2})\s+(\d+,\d{2}) -> \1\n\2
   (rSeq [.grp 1 (rSeq [rPlus cD, .lit ',', rRep cD 2 2]), rPlus cWS,
          .grp 2 (rSeq [rPlus cD, .lit ',', rRep cD 2 2])],
    [.ref 1, .txt ['\n'], .ref 2]),
   -- ([0-9]{1,3},\d{2})\s+([0-9]{1,3},\d{2}) -> \1\n\2
   (rSeq [.grp 1 (rSeq [rRep cD 1 3, .lit ',', rRep cD 2 2]), rPlus cWS,
          .grp 2 (rSeq [rRep cD 1 3, .lit ',', rRep cD 2 2])],
    [.ref 1, .txt ['\n'], .ref 2]),
   -- ([0-9]{1,6}\.\d{3},\d{2}) -> \n\1
   (.grp 1 (rSeq [rRep cD 1 6, .lit '.', rRep cD 3 3, .lit ',', rRep cD 2 2]),
    [.txt ['\n'], .ref 1]),
   -- ([A-Z]{2}[0-9]{6}) -> \n\1
   (.grp 1 (rSeq [rRep cAZ 2 2, rRep cD 6 6]),
    [.txt ['\n'], .ref 1]),
   -- (0[0-9]/[0-9]{2}/[0-9]{4}) -> \n\1
   (.grp 1 (rSeq [.lit '0', cD, .lit '/', rRep cD 2 2, .lit '/', rRep cD 4 4]),
    [.txt ['\n'], .ref 1])]

/-- `re.split(pattern, s)`: the pieces of `s` between the non-overlapping
leftmost matches (no capture groups in the source's split pattern). -/
def reSplitAux : Nat → RE → List Char → List Char → List (List Char)
  | 0, _, cur, s => [cur.reverse ++ s]
  | fuel + 1, re, cur, s =>
      match firstMatchAt re s with
      | none =>
          match s with
          | [] => [cur.reverse]
          | c :: rest => reSplitAux fuel re (c :: cur) rest
      | some (matched, rest, _) =>
          if matched.isEmpty then
            match s with
            | [] => [cur.reverse]
            | c :: rest2 => reSplitAux fuel re (c :: cur) rest2
          else cur.reverse :: reSplitAux fuel re [] rest

/-- `re.split(r'\s{3,}', line)`. -/
def reSplit3ws (line : List Char) : List (List Char) :=
  reSplitAux (line.length + 1) (rRepMin cWS 3) [] line

/-- `'\n'.join(lines)`. -/
def joinLines (ls : List (List Char)) : List Char :=
  List.intercalate ['\n'] ls

/-- The final per-line restructuring of `clean_text` (lines 182-201): strip
each line, drop blanks, and split any line still containing a run of three or
more whitespace characters at those runs. -/
def cleanFinalLines (s : List Char) : List (List Char) :=
  (splitChar '\n' s).flatMap (fun line =>
    let line := pyStrip line
    if line.isEmpty then []
    else if reSearch (rRepMin cWS 3) line then
      ((reSplit3ws line).map pyStrip).filter (fun p => ¬p.isEmpty)
    else [line])

/-- The Text Structurer `clean_text` (full.py lines 46-204): character-repair
replacements, the two ordered pattern cascades, number/whitespace cleanup, and
the final line-by-line restructuring.  Debug printing is dropped. -/
def clean_text (text : String) : String :=
  let t := cleanReplacements.foldl
    (fun acc p => strReplace acc p.1.data p.2.data) text.data
  let t := structurePatterns.foldl (fun acc p => reSub p.1 p.2 acc) t
  let t := itemSeparationPatterns.foldl (fun acc p => reSub p.1 p.2 acc) t
  -- re.sub(r'(\d)\s+(\d)', r'\1\2', ...)
  let t := reSub (rSeq [.grp 1 cD, rPlus cWS, .grp 2 cD]) [.ref 1, .ref 2] t
  -- re.sub(r'([0-9])\s*([,.])\s*([0-9])', r'\1\2\3', ...)
  let t := reSub (rSeq [.grp 1 cD, rStar cWS, .grp 2 cSep, rStar cWS, .grp 3 cD])
    [.ref 1, .ref 2, .ref 3] t
  -- re.sub(r'[ \t]+', ' ', ...)
  let t := reSub (rPlus cSpTab) [.txt [' ']] t
  -- re.sub(r'\n\s*\n', '\n', ...)
  let t := reSub (rSeq [.litc '\n', rStar cWS, .litc '\n']) [.txt ['\n']] t
  let t := pyStrip t
  String.mk (joinLines (cleanFinalLines t))

end OcrTrans

namespace OcrTrans

/-! ## Metadata Miner: `extract_invoice_metadata` (full.py lines 436-546)

Only the `potential_totals` and `potential_currencies` candidate lists are
embedded: they are the only two lists that `post_process_invoice_data` and the
upload handler consume.  The invoice-number / date / weight candidate lists
feed nothing but the natural-language hint block of the reasoning-service
request and are not read by any reconciliation step. -/

/-- `([0-9]{3,6}[,\.]\d{2})`, the generic monetary-amount capture. -/
def reAmount36 : RE := rSeq [rRep cD 3 6, cSep, rRep cD 2 2]

/-- `(?:DH|EUR|€|MAD|USD|\$)` (the order used by the end-of-line patterns). -/
def reCurTokA : RE :=
  rAltL [rStr "DH", rStr "EUR", .lit '€', rStr "MAD", rStr "USD", .lit '$']

/-- `(?:EUR|€|DH|MAD|USD|\$)` (the order used by the adjacency patterns). -/
def reCurTokB : RE :=
  rAltL [rStr "EUR", .lit '€', rStr "DH", rStr "MAD", rStr "USD", .lit '$']

/-- `LABEL\s*[:\s]*([0-9]{1,6}[,\.]\d{2})`, the labeled-total shape.  `label`
is given as the list of its `\s*`-separated words. -/
def patLabeled (label : List String) : RE :=
  rSeq ((label.map rStr).intersperse (rStar cWS) ++
        [rStar cColWS, .grp 1 reAmount16])

/-- `LABEL\s*[:\s]+([0-9]{1,6}[,\.]\d{2})` (the `TOTAL`/`Total` rows, which
require at least one separator character). -/
def patLabeledPlus (label : String) : RE :=
  rSeq [rStr label, rStar cWS, rPlus cColWS, .grp 1 reAmount16]

/-- The `total_patterns` cascade (full.py lines 489-515), in source order;
each is applied with `re.findall(..., re.IGNORECASE)`. -/
def totalPatterns : List RE :=
  [patLabeled ["Montant", "TTC"],
   patLabeled ["TOTAL", "TTC"],
   patLabeled ["Montant", "HT"],
   patLabeled ["TOTAL", "HT"],
   patLabeledPlus "TOTAL",
   patLabeledPlus "Total",
   patLabeled ["MONTANT", "TOTAL"],
   patLabeled ["Montant", "Total"],
   patLabeled ["SOUS", "TOTAL"],
   patLabeled ["NET", "À", "PAYER"],
   patLabeled ["À", "PAYER"],
   patLabeled ["Prix", "total"],
   patLabeled ["Valeur", "totale"],
   patLabeled ["Valeur", "Totale"],
   patLabeled ["Valeur", "devise"],
   -- ([0-9]{3,6}[,\.]\d{2})\s*(?:DH|EUR|€|MAD|USD|\$)\s*$
   rSeq [.grp 1 reAmount36, rStar cWS, reCurTokA, rStar cWS, .eol],
   -- (?:DH|EUR|€|MAD|USD|\$)\s*([0-9]{3,6}[,\.]\d{2})\s*$
   rSeq [reCurTokA, rStar cWS, .grp 1 reAmount36, rStar cWS, .eol],
   -- ([0-9]{3,6}[,\.]\d{2})\s*$
   rSeq [.grp 1 reAmount36, rStar cWS, .eol],
   -- FACTURE\s*.*?([0-9]{3,6}[,\.]\d{2})
   rSeq [rStr "FACTURE", rStar cWS, rStarLazy cDot, .grp 1 reAmount36],
   -- ([0-9]{3,6}[,\.]\d{2})\s*(?:EUR|€|DH|MAD|USD|\$)
   rSeq [.grp 1 reAmount36, rStar cWS, reCurTokB],
   -- (?:EUR|€|DH|MAD|USD|\$)\s*([0-9]{3,6}[,\.]\d{2})
   rSeq [reCurTokB, rStar cWS, .grp 1 reAmount36],
   -- ([0-9]{3,6}[,\.]\d{2})
   .grp 1 reAmount36]

/-- The `currency_patterns` cascade (full.py lines 528-535), in source order. -/
def currencyPatterns : List RE :=
  [.grp 1 (rAltL [rStr "EUR", rStr "EURO", .lit '€']),
   .grp 1 (rAltL [rStr "USD", rStr "DOLLAR", .lit '$']),
   .grp 1 (rAltL [rStr "DH", rStr "MAD", rStr "DIRHAM"]),
   .grp 1 (rAltL [rStr "GBP", .lit '£']),
   rSeq [rStr "DEVISE", rStar cWS, rOpt (.lit ':'), rStar cWS,
         .grp 1 (rRep cAZ 3 3)],
   rSeq [rStr "CURRENCY", rStar cWS, rOpt (.lit ':'), rStar cWS,
         .grp 1 (rRep cAZ 3 3)]]

/-- `metadata["potential_totals"]`: every match of every total pattern,
appended in cascade order, duplicates retained. -/
def extract_potential_totals (text : String) : List String :=
  (totalPatterns.flatMap (fun p => reFindAll p text.data)).map String.mk

/-- `metadata["potential_currencies"]`. -/
def extract_potential_currencies (text : String) : List String :=
  (currencyPatterns.flatMap (fun p => reFindAll p text.data)).map String.mk

/-- The candidate lists of `extract_invoice_metadata` that the reconciler
reads. -/
structure Metadata where
  potential_totals : List String
  potential_currencies : List String
deriving DecidableEq, Repr

def extract_invoice_metadata (text : String) : Metadata :=
  { potential_totals := extract_potential_totals text
    potential_currencies := extract_potential_currencies text }

/-! ## Python numeric coercion helpers -/

def digitsToNat (ds : List Char) : Nat :=
  ds.foldl (fun n c => 10 * n + (c.toNat - 48)) 0

/-- The exact rational `sgn · (ip.fp) · 10^(esgn·ed)` assembled from the
pieces of a decimal literal (`mkRat` keeps every definition here reducible in
the kernel, which the core rational arithmetic operations are not). -/
def ratOfDecimal (sgn : Int) (ip fp : List Char) (esgn : Int) (ed : Nat) : ℚ :=
  let num : Int := sgn * ((digitsToNat ip * 10 ^ fp.length + digitsToNat fp : Nat) : Int)
  if 0 ≤ esgn then mkRat (num * (10 ^ ed : Nat)) (10 ^ fp.length)
  else mkRat num (10 ^ fp.length * 10 ^ ed)

/-- Python `float(s)` on a string (floats are modelled exactly as rationals):
optional surrounding whitespace and sign, `digits[.digits]` or `.digits`,
optional exponent.  `inf`/`nan` spellings and digit-group underscores are not
modelled; no string coerced in this pipeline contains them. -/
def pyFloat (str0 : String) : Option ℚ :=
  let s := pyStrip str0.data
  let sgn : Int := if s.headD ' ' = '-' then -1 else 1
  let s := if s.headD ' ' = '-' ∨ s.headD ' ' = '+' then s.tail else s
  let ip := s.takeWhile isDigitCh
  let s := s.dropWhile isDigitCh
  let fp := if s.headD ' ' = '.' then s.tail.takeWhile isDigitCh else []
  let s := if s.headD ' ' = '.' then s.tail.dropWhile isDigitCh else s
  if ip.isEmpty ∧ fp.isEmpty then none
  else
    match s with
    | [] => some (ratOfDecimal sgn ip fp 1 0)
    | e :: r =>
        if e = 'e' ∨ e = 'E' then
          let esgn : Int := if r.headD ' ' = '-' then -1 else 1
          let r := if r.headD ' ' = '-' ∨ r.headD ' ' = '+' then r.tail else r
          let ed := r.takeWhile isDigitCh
          let r := r.dropWhile isDigitCh
          if ed.isEmpty ∨ ¬r.isEmpty then none
          else some (ratOfDecimal sgn ip fp esgn (digitsToNat ed))
        else none

def isNumRunCh (c : Char) : Bool := isDigitCh c ∨ c = '.'

/-- `re.findall(r'[\d.]+', s)`: the maximal runs of digits and dots. -/
def findNumRunsAux : Nat → List Char → List (List Char)
  | 0, _ => []
  | _ + 1, [] => []
  | fuel + 1, c :: rest =>
      if isNumRunCh c then
        (c :: rest.takeWhile isNumRunCh) :: findNumRunsAux fuel (rest.dropWhile isNumRunCh)
      else findNumRunsAux fuel rest

def findNumRuns (s : List Char) : List (List Char) :=
  findNumRunsAux (s.length + 1) s

/-- `float(total.replace(",", "."))` — the numeric reading of one metadata
candidate inside the best-total selection loops. -/
def candidateValue (total : String) : Option ℚ :=
  pyFloat (String.mk (strReplace total.data [','] ['.']))

/-- One iteration of the best-total selection loop. -/
def bestTotalStep (best : ℚ) (total : String) : ℚ :=
  match candidateValue total with
  | none => best
  | some v => if 50 ≤ v ∧ v ≤ 50000 ∧ best < v then v else best

/-- The best-metadata-total selection loop shared by
`post_process_invoice_data` (lines 656-666 and 689-698) and the upload
handler (lines 2256-2265): the running maximum over candidates that parse as
floats after comma→dot substitution and lie in the fixed range
`50 ≤ v ≤ 50000`, starting from `0.0`; unparsable candidates are skipped. -/
def bestTotal (totals : List String) : ℚ :=
  totals.foldl bestTotalStep 0

end OcrTrans

namespace OcrTrans

/-! ## Python values

Invoice fields hold JSON-decoded Python values.  Numbers (Python `int` and
`float`) are modelled exactly as rationals.  A non-string value in a field the
source manipulates with string methods (e.g. a number under `M_fl_Ngp`, on
which `.strip()` would raise) is outside the data model: those fields are
typed as string-or-null below, matching the schema the structured parser
requests. -/

inductive Value where
  | null
  | bool (b : Bool)
  | num (q : ℚ)
  | str (s : String)
deriving DecidableEq, Repr

/-- Python truthiness of a field value. -/
def valueTruthy : Value → Bool
  | .null => false
  | .bool b => b
  | .num q => q ≠ 0
  | .str s => s ≠ ""

/-- Python `v == 0` (`None == 0` and `"..." == 0` are `False`;
`False == 0` is `True`). -/
def valueEqPyZero : Value → Bool
  | .num q => q = 0
  | .bool b => ¬b
  | _ => false

/-- Python `float(v)`; `.error` stands for the `ValueError`/`TypeError` the
call raises. -/
def pyFloatValue : Value → Except Unit ℚ
  | .num q => .ok q
  | .bool b => .ok (if b then 1 else 0)
  | .null => .error ()
  | .str s =>
      match pyFloat s with
      | some q => .ok q
      | none => .error ()

/-- Python `int(s)` on a string: optional whitespace, sign, digits only. -/
def pyIntStr (s : String) : Except Unit Int :=
  let t := pyStrip s.data
  let sgn : Int := if t.headD ' ' = '-' then -1 else 1
  let t := if t.headD ' ' = '-' ∨ t.headD ' ' = '+' then t.tail else t
  if t.isEmpty ∨ ¬t.all isDigitCh then .error ()
  else .ok (sgn * (digitsToNat t : Int))

/-- Truncation toward zero, as Python `int()` applies to a float. -/
def ratTrunc (q : ℚ) : Int := q.num.tdiv (q.den : Int)

/-- Python `int(v)` (floats truncate toward zero). -/
def pyIntValue : Value → Except Unit Int
  | .num q => .ok (ratTrunc q)
  | .bool b => .ok (if b then 1 else 0)
  | .null => .error ()
  | .str s => pyIntStr s

def pyUpperStr (s : String) : String := String.mk (pyUpper s.data)

def pyStripStr (s : String) : String := String.mk (pyStrip s.data)

/-! ## JSON (`json.loads`)

A strict JSON reader modelling Python's `json.loads`: the full input must be
one JSON value surrounded only by whitespace; strings reject raw control
characters; numbers reject leading zeros.  The non-standard `NaN`/`Infinity`
spellings and `\uXXXX` surrogate pairs are not modelled (nothing the claims
evaluate contains them).  Objects keep their key order; lookups take the last
binding, as a Python dict built by the decoder would. -/

inductive Json where
  | null
  | bool (b : Bool)
  | num (q : ℚ)
  | str (s : String)
  | arr (xs : List Json)
  | obj (kvs : List (String × Json))

def jsWS (s : List Char) : List Char :=
  s.dropWhile (fun c => c = ' ' ∨ c = '\t' ∨ c = '\n' ∨ c = '\r')

def hexVal (c : Char) : Option Nat :=
  if '0' ≤ c ∧ c ≤ '9' then some (c.toNat - 48)
  else if 'a' ≤ c ∧ c ≤ 'f' then some (c.toNat - 87)
  else if 'A' ≤ c ∧ c ≤ 'F' then some (c.toNat - 55)
  else none

/-- JSON string body (after the opening quote): content and remainder. -/
def parseJsonStr : Nat → List Char → Option (List Char × List Char)
  | 0, _ => none
  | fuel + 1, s =>
      match s with
      | [] => none
      | '"' :: r => some ([], r)
      | '\\' :: e :: r =>
          let esc : Option (Char × List Char) :=
            match e, r with
            | '"', _ => some ('"', r)
            | '\\', _ => some ('\\', r)
            | '/', _ => some ('/', r)
            | 'b', _ => some ('\x08', r)
            | 'f', _ => some ('\x0c', r)
            | 'n', _ => some ('\n', r)
            | 'r', _ => some ('\r', r)
            | 't', _ => some ('\t', r)
            | 'u', h1 :: h2 :: h3 :: h4 :: r2 =>
                match hexVal h1, hexVal h2, hexVal h3, hexVal h4 with
                | some a, some b, some c, some d =>
                    some (Char.ofNat (((a * 16 + b) * 16 + c) * 16 + d), r2)
                | _, _, _, _ => none
            | _, _ => none
          match esc with
          | none => none
          | some (c, r2) =>
              (parseJsonStr fuel r2).map (fun p => (c :: p.1, p.2))
      | c :: r =>
          if c.toNat < 32 then none
          else (parseJsonStr fuel r).map (fun p => (c :: p.1, p.2))

/-- JSON number: `-?(0|[1-9][0-9]*)(\.[0-9]+)?([eE][+-]?[0-9]+)?`. -/
def parseJsonNum (s : List Char) : Option (ℚ × List Char) :=
  let sgn : Int := match s with
    | '-' :: _ => -1
    | _ => 1
  let s := match s with
    | '-' :: r => r
    | r => r
  let ip := s.takeWhile isDigitCh
  let s1 := s.dropWhile isDigitCh
  if ip.isEmpty then none
  else if 1 < ip.length ∧ ip.headD '0' = '0' then none
  else
    let fp := match s1 with
      | '.' :: r => r.takeWhile isDigitCh
      | _ => []
    let hadDot : Bool := match s1 with
      | '.' :: _ => true
      | _ => false
    let s2 := match s1 with
      | '.' :: r => r.dropWhile isDigitCh
      | r => r
    if hadDot ∧ fp.isEmpty then none
    else
      match s2 with
      | 'e' :: r | 'E' :: r =>
          let esgn : Int := if r.headD ' ' = '-' then -1 else 1
          let r := if r.headD ' ' = '-' ∨ r.headD ' ' = '+' then r.tail else r
          let ed := r.takeWhile isDigitCh
          let r2 := r.dropWhile isDigitCh
          if ed.isEmpty then none
          else some (ratOfDecimal sgn ip fp esgn (digitsToNat ed), r2)
      | r => some (ratOfDecimal sgn ip fp 1 0, r)

mutual

def parseJsonValue : Nat → List Char → Option (Json × List Char)
  | 0, _ => none
  | fuel + 1, s =>
      match jsWS s with
      | 'n' :: 'u' :: 'l' :: 'l' :: r => some (.null, r)
      | 't' :: 'r' :: 'u' :: 'e' :: r => some (.bool true, r)
      | 'f' :: 'a' :: 'l' :: 's' :: 'e' :: r => some (.bool false, r)
      | '"' :: r =>
          (parseJsonStr (r.length + 1) r).map (fun p => (.str (String.mk p.1), p.2))
      | '\x5b' :: r =>
          match jsWS r with
          | '\x5d' :: r2 => some (.arr [], r2)
          | _ =>
              (parseJsonElems fuel r).map (fun p => (.arr p.1, p.2))
      | '\x7b' :: r =>
          match jsWS r with
          | '\x7d' :: r2 => some (.obj [], r2)
          | _ =>
              (parseJsonMembers fuel r).map (fun p => (.obj p.1, p.2))
      | r => parseJsonNum r |>.map (fun p => (.num p.1, p.2))

def parseJsonElems : Nat → List Char → Option (List Json × List Char)
  | 0, _ => none
  | fuel + 1, s => do
      let (v, r) ← parseJsonValue fuel s
      match jsWS r with
      | ',' :: r2 => do
          let (vs, r3) ← parseJsonElems fuel r2
          pure (v :: vs, r3)
      | '\x5d' :: r2 => pure ([v], r2)
      | _ => none

def parseJsonMembers : Nat → List Char → Option (List (String × Json) × List Char)
  | 0, _ => none
  | fuel + 1, s => do
      match jsWS s with
      | '"' :: r => do
          let (k, r1) ← parseJsonStr (r.length + 1) r
          match jsWS r1 with
          | ':' :: r2 => do
              let (v, r3) ← parseJsonValue fuel r2
              match jsWS r3 with
              | ',' :: r4 => do
                  let (kvs, r5) ← parseJsonMembers fuel r4
                  pure ((String.mk k, v) :: kvs, r5)
              | '\x7d' :: r4 => pure ([(String.mk k, v)], r4)
              | _ => none
          | _ => none
      | _ => none

end

/-- Python `json.loads`: one JSON value, whole string. -/
def json_loads (s : String) : Option Json :=
  match parseJsonValue (s.length + 8) s.data with
  | some (j, rest) => if (jsWS rest).isEmpty then some j else none
  | none => none

/-- Python `d.get(key)` on a decoded object (last duplicate key wins). -/
def jsonGet (j : Json) (key : String) : Option Json :=
  match j with
  | .obj kvs => (kvs.reverse.find? (fun p => p.1 = key)).map (fun p => p.2)
  | _ => none

/-- `.get(key, '')` restricted to string contents (non-string contents only
ever feed debug prints in the source). -/
def jStrField (j : Json) (key : String) : String :=
  match jsonGet j key with
  | some (.str s) => s
  | _ => ""

end OcrTrans

namespace OcrTrans

/-! ## Reasoning-service classification lookup: `find_ngp_codes_with_ai`
(full.py lines 1434-1589) -/

/-- Outcome of the classification request to the reasoning service. -/
inductive AiReply where
  | ok (assistant_reply : String)
  | httpError
  | failure
/- `ok` carries the answer payload (`result.get('response') or
result.get('answer') or str(result)`); `httpError` is a non-200 status;
`failure` is a raised requests exception (connection error, timeout, ...). -/

/-- The external collaborators of the reconciliation stage.  The service's
reply may depend on the product descriptions sent; the reference-dataset
contents only shape the prompt text, which is folded into `aiReply`. -/
structure Env where
  aiReply : List String → AiReply

/-- A validated classification as consumed by `post_process_invoice_data`
(the fields it reads from each returned dict). -/
structure Classification where
  description : String
  ngp_code : String
  confidence : String
  reasoning : String
  source : String
deriving DecidableEq, Repr

def backtickCh : Char := '\x60'

/-- `re.search(r'```(?:json)?\s*([\s\S]+?)\s*```', reply)` (case-sensitive:
this is the one pattern the source applies without IGNORECASE), shared by the
classification lookup (lines 1522-1523) and the upload handler (lines
2211-2212): the fenced content if a fenced block is present, else the whole
reply stripped. -/
def fencedBlockRE : RE :=
  rSeq [rStrC "```", rOpt (rStrC "json"), rStar cWS,
        .grp 1 (rPlusLazy cAny), rStar cWS, rStrC "```"]

def reSearchFind : Nat → RE → List Char → Option Groups
  | 0, _, _ => none
  | fuel + 1, re, s =>
      match firstMatchAt re s with
      | some (_, _, g) => some g
      | none =>
          match s with
          | [] => none
          | _ :: rest => reSearchFind fuel re rest

def extract_json_block (reply : String) : String :=
  match reSearchFind (reply.length + 1) fencedBlockRE reply.data with
  | some g => String.mk (getGroup g 1)
  | none => pyStripStr reply

def defaultClassification (desc reason src : String) : Classification :=
  { description := desc, ngp_code := "94039000", confidence := "low",
    reasoning := reason, source := src }

def fallbackClassifications (descs : List String) (reason src : String) :
    List Classification :=
  descs.map (fun d => defaultClassification d reason src)

/-- The per-classification validation loop (lines 1531-1542): a code that is
missing, shorter than 6 characters, or a `N/A`/`NULL`/`NONE` marker is
replaced by the generic default `94039000` at low confidence.  An element
that is not a dict, or whose `ngp_code` is not a string, makes the source
raise inside the loop, which the outer handler turns into the
`error_fallback` list: that raise is the `.error` case here. -/
def validateClassification (c : Json) : Except Unit Classification :=
  match c with
  | .obj _ =>
      match (jsonGet c "ngp_code").getD (.str "") with
      | .str code =>
          if code = "" ∨ code.length < 6 ∨
             ["N/A", "NULL", "NONE"].contains (pyUpperStr code) then
            .ok { description := jStrField c "description", ngp_code := "94039000",
                  confidence := "low",
                  reasoning := "Code générique assigné - classification manuelle recommandée",
                  source := "default_fallback" }
          else
            .ok { description := jStrField c "description", ngp_code := code,
                  confidence := jStrField c "confidence",
                  reasoning := jStrField c "reasoning",
                  source := jStrField c "source" }
      | _ => .error ()
  | _ => .error ()

/-- The validation loop over the decoded `classifications` array; the first
raising element aborts the whole batch (source lines 1530-1542). -/
def validateClassifications : List Json → Except Unit (List Classification)
  | [] => .ok []
  | c :: rest => do
      let v ← validateClassification c
      let vs ← validateClassifications rest
      pure (v :: vs)

/-- `find_ngp_codes_with_ai`: batch classification of product descriptions
via the reasoning service; every failure path degrades to a list of default
classifications, one per description, so the caller always receives
validated codes. -/
def find_ngp_codes_with_ai (env : Env) (descs : List String) : List Classification :=
  match env.aiReply descs with
  | .httpError =>
      fallbackClassifications descs "Code par défaut - API indisponible" "api_fallback"
  | .failure =>
      fallbackClassifications descs "Code par défaut - erreur système" "error_fallback"
  | .ok reply =>
      let json_string := extract_json_block reply
      match json_loads json_string with
      | none =>
          fallbackClassifications descs
            "Code par défaut - classification manuelle recommandée" "fallback_default"
      | some j =>
          match j with
          | .obj _ =>
              match (jsonGet j "classifications").getD (.arr []) with
              | .arr elems =>
                  match validateClassifications elems with
                  | .ok cs => cs
                  | .error _ =>
                      fallbackClassifications descs
                        "Code par défaut - erreur système" "error_fallback"
              | _ =>
                  -- iterating a non-list (or calling `.get` on its elements)
                  -- raises, caught by the outer handler
                  fallbackClassifications descs
                    "Code par défaut - erreur système" "error_fallback"
          | _ =>
              -- `.get('classifications', [])` on a non-dict raises
              fallbackClassifications descs
                "Code par défaut - erreur système" "error_fallback"

end OcrTrans

namespace OcrTrans

/-! ## Field Reconciler and Classification Resolver:
`post_process_invoice_data` (full.py lines 577-877) -/

/-- A draft line item as decoded from the reasoning-service reply.  `none` is
an absent key; `some none` is a JSON null.  String-typed fields follow the
schema the parser requests (a number in them would make the source raise on
`.strip()` and is outside the model). -/
structure DraftItem where
  AvecSansPaiment : Option (Option String) := none
  M_fl_Ngp : Option (Option String) := none
  M_fl_art : Option (Option String) := none
  M_fl_desig : Option (Option String) := none
  M_fl_orig : Option (Option String) := none
  quantity : Option Value := none
  M_fl_unite : Option (Option String) := none
  M_fl_PNet : Option Value := none
  M_fl_PBrut : Option Value := none
  M_fl_valDev : Option Value := none
deriving DecidableEq, Repr

/-- A draft record.  `items := none` covers both an absent `items` key and a
non-list value (line 713 replaces either with `[]`). -/
structure DraftInvoice where
  M_fe_num : Option (Option String) := none
  M_fe_date : Option (Option String) := none
  M_fe_devise : Option (Option String) := none
  M_fe_Pnet : Option Value := none
  M_fe_Pbrute : Option Value := none
  M_fe_valDev : Option Value := none
  items : Option (List DraftItem) := none
deriving DecidableEq, Repr

/-- A line item after reconciliation. -/
structure Item where
  AvecSansPaiment : String
  M_fl_Ngp : String
  M_fl_art : String
  M_fl_desig : String
  M_fl_orig : String
  quantity : Value
  M_fl_unite : String
  M_fl_PNet : Value
  M_fl_PBrut : Value
  M_fl_valDev : Value
deriving DecidableEq, Repr

/-- A record after reconciliation. -/
structure Invoice where
  M_fe_num : String
  M_fe_date : String
  M_fe_devise : String
  M_fe_Pnet : Value
  M_fe_Pbrute : Value
  M_fe_valDev : Value
  items : List Item
deriving DecidableEq, Repr

def optStr (f : Option (Option String)) (ifAbsent ifNull : String) : String :=
  match f with
  | none => ifAbsent
  | some none => ifNull
  | some (some s) => s

def optVal (f : Option Value) (ifAbsent ifNull : Value) : Value :=
  match f with
  | none => ifAbsent
  | some .null => ifNull
  | some v => v

/-- The `currency_map` of lines 594-599. -/
def currencyMap : List (String × String) :=
  [("EUR", "EUR"), ("EURO", "EUR"), ("€", "EUR"),
   ("USD", "USD"), ("DOLLAR", "USD"), ("$", "USD"),
   ("DH", "MAD"), ("MAD", "MAD"), ("DIRHAM", "MAD"),
   ("GBP", "GBP"), ("£", "GBP")]

/-- `currency_map.get(currency.upper())`. -/
def lookupCurrency (c : String) : Option String :=
  (currencyMap.find? (fun p => p.1 = pyUpperStr c)).map (fun p => p.2)

/-- The candidate-currency loop of lines 601-606: first candidate that
normalizes wins, and only when the field is still empty. -/
def currencyFromCandidates : List String → String → String
  | [], d => d
  | c :: rest, d =>
      match lookupCurrency c with
      | some n => if d = "" then n else currencyFromCandidates rest d
      | none => currencyFromCandidates rest d

/-- Currency resolution (lines 592-610), including the `MAD` fallback. -/
def resolveDevise (md : Option Metadata) (devise0 : String) : String :=
  let d :=
    match md with
    | none => devise0
    | some m =>
        if m.potential_currencies.isEmpty then devise0
        else currencyFromCandidates m.potential_currencies devise0
  if d = "" then "MAD" else d

/-- `s.replace(",", ".").replace("KGS", "").replace("KG", "").strip()`. -/
def stripWeightStr (s : String) : List Char :=
  pyStrip (strReplace (strReplace (strReplace s.data [','] ['.']) "KGS".data [])
    "KG".data [])

/-- Weight coercion for `M_fe_Pnet` / `M_fe_Pbrute` (lines 623-644): a string
is cleaned and its first digit run parsed (a multi-dot run makes `float`
raise); a non-string goes through `float` directly. -/
def coerceWeight (v : Value) : Except Unit ℚ :=
  match v with
  | .str s =>
      match findNumRuns (stripWeightStr s) with
      | [] => .ok 0
      | n :: _ =>
          match pyFloat (String.mk n) with
          | some q => .ok q
          | none => .error ()
  | v => pyFloatValue v

/-- The number-word tokens of line 651. -/
def writtenWords : List String :=
  ["DEUX", "TROIS", "QUATRE", "CINQ", "CENT", "EUR", "CTS"]

/-- `M_fe_valDev` coercion (lines 646-706). -/
def coerceValDev (md : Option Metadata) (v : Value) : Except Unit Value :=
  match v with
  | .str s =>
      let val_str := strReplace (strReplace s.data [','] ['.']) [' '] []
      if writtenWords.any (fun w => strContains (pyUpper val_str) w.data) then
        -- written-out amount: use the best metadata candidate instead
        match md with
        | some m =>
            if m.potential_totals.isEmpty then .ok (.num 0)
            else
              let bt := bestTotal m.potential_totals
              .ok (.num (if 0 < bt then bt else 0))
        | none => .ok (.num 0)
      else
        match findNumRuns val_str with
        | [] => .ok (.num 0)
        | n :: _ =>
            match pyFloat (String.mk n) with
            | some q => .ok (.num q)
            | none => .error ()
  | v =>
      -- already numeric: adopt a metadata candidate only when empty/zero
      if v = .null ∨ valueEqPyZero v then
        match md with
        | some m =>
            if m.potential_totals.isEmpty then (pyFloatValue v).map .num
            else
              let bt := bestTotal m.potential_totals
              .ok (.num (if 0 < bt then bt else 0))
        | none => (pyFloatValue v).map .num
      else .ok v

/-- The single `try`/`except (ValueError, TypeError)` of lines 621-710: the
three header coercions run in order and any raise resets all three fields to
`0.0`. -/
def coerceHeaderNumerics (md : Option Metadata) (pnet0 pbrute0 valdev0 : Value) :
    Value × Value × Value :=
  let r : Except Unit (Value × Value × Value) := do
    let p ← coerceWeight pnet0
    let b ← coerceWeight pbrute0
    let v ← coerceValDev md valdev0
    pure (.num p, .num b, v)
  match r with
  | .ok x => x
  | .error _ => (.num 0, .num 0, .num 0)

/-- Item field defaults (lines 717-740): `setdefault` for absent keys, then
the None-replacement loop.  Note the asymmetry it produces: an absent
`M_fl_unite` becomes `"PCS"` but a null one becomes `""`; an absent
`quantity` becomes `1` but a null one becomes `""`. -/
def defaultItem (d : DraftItem) : Item :=
  { AvecSansPaiment := optStr d.AvecSansPaiment "" ""
    M_fl_Ngp := optStr d.M_fl_Ngp "" ""
    M_fl_art := optStr d.M_fl_art "" ""
    M_fl_desig := optStr d.M_fl_desig "" ""
    M_fl_orig := optStr d.M_fl_orig "MAROC" "MAROC"
    quantity := optVal d.quantity (.num 1) (.str "")
    M_fl_unite := optStr d.M_fl_unite "PCS" ""
    M_fl_PNet := optVal d.M_fl_PNet (.num 0) (.num 0)
    M_fl_PBrut := optVal d.M_fl_PBrut (.num 0) (.num 0)
    M_fl_valDev := optVal d.M_fl_valDev (.num 0) (.num 0) }

/-- Whether an item needs a classification code (line 750): empty after
stripping, or the `CODE REQUIS` placeholder. -/
def itemNeedsNgp (it : Item) : Bool :=
  let c := pyStripStr it.M_fl_Ngp
  c = "" ∨ c = "CODE REQUIS"

/-- `item.get("M_fl_desig") and item.get("M_fl_desig").strip()` (line 751). -/
def hasDesig (it : Item) : Bool :=
  it.M_fl_desig ≠ "" ∧ pyStripStr it.M_fl_desig ≠ ""

/-- The collection pass of lines 744-754: indices and descriptions of items
needing a code, in item order. -/
def itemsNeedingNgp (items : List Item) : List (Nat × String) :=
  (items.enum.filter (fun p => itemNeedsNgp p.2 ∧ hasDesig p.2)).map
    (fun p => (p.1, p.2.M_fl_desig))

def setItemNgp (items : List Item) (idx : Nat) (code : String) : List Item :=
  match items.get? idx with
  | none => items
  | some it => items.set idx { it with M_fl_Ngp := code }

/-- Applying the returned classifications (lines 760-776): the i-th
classification goes to the i-th collected item; a code of length ≥ 6 is
assigned, anything else resets the field to `""` for the final pass. -/
def applyAiCodes (items : List Item) (needing : List Nat)
    (cls : List Classification) : List Item :=
  cls.enum.foldl
    (fun acc p =>
      match needing.get? p.1 with
      | none => acc
      | some idx =>
          if p.2.ngp_code ≠ "" ∧ 6 ≤ p.2.ngp_code.length then
            setItemNgp acc idx p.2.ngp_code
          else setItemNgp acc idx "")
    items

/-- The AI assignment phase (lines 742-780): nothing is sent when no item
needs a code. -/
def ngpAssignmentPhase (env : Env) (items : List Item) : List Item :=
  let needing := itemsNeedingNgp items
  if needing.isEmpty then items
  else
    applyAiCodes items (needing.map (fun p => p.1))
      (find_ngp_codes_with_ai env (needing.map (fun p => p.2)))

/-- The final validation pass (lines 782-789): any code that strips to empty
or to a `N/A`/`NULL`/`NONE` marker becomes the fixed default `94039000`. -/
def finalNgpPass (items : List Item) : List Item :=
  items.map (fun it =>
    let c := pyStripStr it.M_fl_Ngp
    if c = "" ∨ ["N/A", "NULL", "NONE", ""].contains (pyUpperStr c) then
      { it with M_fl_Ngp := "94039000" }
    else it)

/-- Python `\w` for the data handled here: ASCII alphanumerics, underscore,
and Latin-1 letters. -/
def isWordCh (c : Char) : Bool :=
  ('a' ≤ c ∧ c ≤ 'z') ∨ ('A' ≤ c ∧ c ≤ 'Z') ∨ isDigitCh c ∨ c = '_' ∨
  (0xC0 ≤ c.toNat ∧ c.toNat ≤ 0xFF ∧ c.toNat ≠ 0xD7 ∧ c.toNat ≠ 0xF7)

/-- Invoice-number cleaning (lines 795-797): when the field is non-empty,
drop every character that is not a word character, a dash or a slash. -/
def cleanInvoiceNum (s : String) : String :=
  if s = "" then s
  else String.mk (s.data.filter (fun c => isWordCh c ∨ c = '-' ∨ c = '/'))

/-- Item `M_fl_valDev` string cleaning and extraction (lines 818-829); every
failure inside is caught by the inner `except Exception` and yields `0.0`. -/
def itemValDevStr (s : String) : ℚ :=
  let val_str := strReplace (strReplace (strReplace (strReplace s.data
    [','] ['.']) [' '] []) "€".data []) "EUR".data []
  match findNumRuns val_str with
  | [] => 0
  | n :: _ => (pyFloat (String.mk n)).getD 0

/-- `q / n` for a positive item count (`mkRat` form, kernel-reducible). -/
def qDivNat (q : ℚ) (n : Nat) : ℚ := mkRat q.num (q.den * n)

/-- `data.get("M_fe_valDev", 0) > 0` for the post-coercion header total
(always a number or bool by then). -/
def headerValPos (v : Value) : Bool :=
  match v with
  | .num q => 0 < q
  | .bool b => b
  | _ => false

def headerValRat (v : Value) : ℚ :=
  match v with
  | .num q => q
  | .bool b => if b then 1 else 0
  | _ => 0

/-- The numeric work of one iteration of the enhanced item-validation loop
(lines 815-867): the final `M_fl_valDev` (a copied header value can be
non-numeric, hence `Value`), `M_fl_PBrut`, `quantity` and `M_fl_PNet`, or the
`ValueError`/`TypeError` the iteration raises.  `prev` holds the
already-validated items and `rest` the not-yet-visited ones: the
`all_items_zero` scan of line 843 reads the item list in exactly that mixed
state, with the current item's just-coerced value in the middle. -/
def validateItemNumerics (hv : Value) (n : Nat) (prev : List Item)
    (it0 : Item) (rest : List Item) : Except Unit (Value × ℚ × Int × ℚ) := do
  let vd : ℚ ←
    match it0.M_fl_valDev with
    | .str s => pure (itemValDevStr s)
    | v => if valueTruthy v then pyFloatValue v else pure 0
  let it1 := { it0 with M_fl_valDev := Value.num vd }
  let vd1 : Value :=
    if vd = 0 ∧ headerValPos hv then
      if n = 1 then hv
      else if 1 < n then
        if (prev ++ it1 :: rest).all (fun x => valueEqPyZero x.M_fl_valDev) then
          Value.num (qDivNat (headerValRat hv) n)
        else Value.num vd
      else Value.num vd
    else Value.num vd
  let pb ← pyFloatValue it0.M_fl_PBrut
  let q : Int ← if valueTruthy it0.quantity then pyIntValue it0.quantity else pure 1
  let pn : ℚ ←
    match it0.M_fl_PNet with
    | .str s =>
        let pnet_str := strReplace s.data [','] ['.']
        if ¬pnet_str.isEmpty ∧ pnet_str.any isDigitCh then
          match findNumRuns pnet_str with
          | [] => pure 0
          | nr :: _ => pure ((pyFloat (String.mk nr)).getD 0)
        else pure 0
    | v => if valueTruthy v then pyFloatValue v else pure 0
  pure (vd1, pb, q, pn)

/-- One iteration of the enhanced item-validation loop (lines 806-872) for
the item at `idx`: the designation default, the four numeric-field updates,
and the trailing `except (ValueError, TypeError)` that resets those same
four fields. -/
def validateOneItem (hv : Value) (n : Nat) (prev : List Item) (idx : Nat)
    (it0 : Item) (rest : List Item) : Item :=
  let it0 :=
    if it0.M_fl_desig = "" then
      { it0 with M_fl_desig := "Article " ++ toString (idx + 1) }
    else it0
  match validateItemNumerics hv n prev it0 rest with
  | .ok (vd1, pb, q, pn) =>
      { it0 with M_fl_valDev := vd1, M_fl_PBrut := Value.num pb,
                 quantity := Value.num (q : ℚ), M_fl_PNet := Value.num pn }
  | .error _ =>
      { it0 with M_fl_PBrut := Value.num 0, M_fl_valDev := Value.num 0,
                 M_fl_PNet := Value.num 0, quantity := Value.num 1 }

def validateItemsAux (hv : Value) (n : Nat) :
    List Item → Nat → List Item → List Item
  | prev, _, [] => prev
  | prev, idx, it :: rest =>
      let it2 := validateOneItem hv n prev idx it rest
      validateItemsAux hv n (prev ++ [it2]) (idx + 1) rest

/-- The enhanced item-validation loop (lines 806-872). -/
def validateItems (hv : Value) (items : List Item) : List Item :=
  validateItemsAux hv items.length [] 0 items

/-- `post_process_invoice_data(data, metadata)` (full.py lines 577-877), with
the reasoning service abstracted as `env`.  Debug printing and the
date-format warning (lines 799-803, output-free) are dropped. -/
def post_process_invoice_data (env : Env) (draft : DraftInvoice)
    (md : Option Metadata) : Invoice :=
  let num0 := optStr draft.M_fe_num "" ""
  let date0 := optStr draft.M_fe_date "" ""
  let devise := resolveDevise md (optStr draft.M_fe_devise "" "")
  let hdr := coerceHeaderNumerics md
    (optVal draft.M_fe_Pnet (.num 0) (.num 0))
    (optVal draft.M_fe_Pbrute (.num 0) (.num 0))
    (optVal draft.M_fe_valDev (.num 0) (.num 0))
  let items0 := (draft.items.getD []).map defaultItem
  let items1 := ngpAssignmentPhase env items0
  let items2 := finalNgpPass items1
  { M_fe_num := cleanInvoiceNum num0
    M_fe_date := date0
    M_fe_devise := devise
    M_fe_Pnet := hdr.1
    M_fe_Pbrute := hdr.2.1
    M_fe_valDev := hdr.2.2
    items := validateItems hdr.2.2 items2 }

/-- The upload handler's own metadata-total fallback (full.py lines
2254-2268), applied to the reconciled record. -/
def upload_total_fallback (md : Option Metadata) (valdev : Value) : Value :=
  let hasTotals :=
    match md with
    | some m => ¬m.potential_totals.isEmpty
    | none => false
  if valueEqPyZero valdev && hasTotals then
    let bt := bestTotal ((md.map Metadata.potential_totals).getD [])
    if 0 < bt then .num bt else valdev
  else valdev

/-- The deterministic total-adoption slice of the upload pipeline: structure
the OCR text (`clean_text`), mine metadata from it, reconcile the draft, then
apply the handler's metadata fallback.  This is the value the claims about
the adopted header total speak about. -/
def pipeline_adopted_total (env : Env) (draft : DraftInvoice) (text : String) :
    Value :=
  let md := extract_invoice_metadata (clean_text text)
  upload_total_fallback (some md)
    (post_process_invoice_data env draft (some md)).M_fe_valDev

end OcrTrans

namespace OcrTrans

/-! ## Malformed-reply recovery in the upload handler
(full.py lines 2209-2248) -/

/-- The aggressive cleaning applied after the first decode failure (lines
2222-2228): strip, drop leading and trailing backticks, and drop a leading
`json` type annotation (re-stripping afterwards). -/
def cleanJsonString (json_string : String) : String :=
  let c := pyStrip json_string.data
  let c := if c.headD ' ' = backtickCh then c.dropWhile (fun ch => ch = backtickCh) else c
  let c := if c.getLastD ' ' = backtickCh then
    (c.reverse.dropWhile (fun ch => ch = backtickCh)).reverse else c
  if "json".data.isPrefixOf c then String.mk (pyStrip (c.drop 4)) else String.mk c

/-- Result of the three-attempt decode of the reasoning-service reply.
`malformed` carries the extracted `json_string`: the source prints its first
500 characters as the diagnostic and raises, and the upload handler turns the
raise into an HTTP 500 without retrying. -/
inductive LlamaParseOutcome where
  | ok (j : Json)
  | malformed (json_string : String)

/-- The decode cascade of the upload handler (lines 2209-2248): extract the
fenced block (or the stripped reply), try strict decoding, then strict
decoding of the cleaned string, then — when `demjson3` is importable — the
lenient decoder, abstracted as `lenient`. -/
def parse_llama_reply (demjson3_available : Bool)
    (lenient : String → Option Json) (assistant_reply : String) :
    LlamaParseOutcome :=
  let json_string := extract_json_block assistant_reply
  match json_loads json_string with
  | some d => .ok d
  | none =>
      let cleaned := cleanJsonString json_string
      match json_loads cleaned with
      | some d => .ok d
      | none =>
          if demjson3_available then
            match lenient cleaned with
            | some d => .ok d
            | none => .malformed json_string
          else .malformed json_string

/-! ## Page loop of `extract_text_with_custom_ocr`
(full.py lines 219-247 and custom_ocr.py lines 222-263) -/

/-- The dynamically-typed values flowing between `custom_ocr.py` and
`full.py`. -/
inductive PyVal where
  | str (s : String)
  | num (q : ℚ)
  | tup2 (a b : PyVal)
deriving DecidableEq, Repr

/-- `CustomOCR.extract_text` (custom_ocr.py lines 222-263): whichever tier
serves the request — the in-process C wrapper, the CLI fallback, or the
final no-engine case — every return statement yields the pair
`(extracted_text, confidence_score)`.  The embedding takes the page's raw
OCR outcome and returns that pair as the Python value the caller receives. -/
def customOCR_extract_text (pageOcr : String × ℚ) : PyVal :=
  .tup2 (.str pageOcr.1) (.num pageOcr.2)

/-- Python exceptions surfacing in the page loop. -/
inductive PyExc where
  | attributeError
deriving DecidableEq, Repr

def pyValTruthy : PyVal → Bool
  | .str s => s ≠ ""
  | .num q => q ≠ 0
  | .tup2 _ _ => true

/-- `page_text.strip()`: defined on strings; on a tuple it raises
`AttributeError`. -/
def pyValStrip : PyVal → Except PyExc PyVal
  | .str s => .ok (.str (pyStripStr s))
  | _ => .error .attributeError

/-- The per-page loop of `extract_text_with_custom_ocr` (full.py lines
219-244): each page is OCRed and `if page_text and page_text.strip():`
decides between accumulating the page text and skipping the page with a
warning.  An exception anywhere in the loop propagates: the enclosing
handler at line 289 re-raises it as `Custom OCR failed`, aborting the whole
extraction. -/
def pdf_pages_loop (pages : List (String × ℚ)) : Except PyExc (List PyVal) :=
  pages.foldlM
    (fun all_text page => do
      let page_text := customOCR_extract_text page
      if pyValTruthy page_text then do
        let stripped ← pyValStrip page_text
        if pyValTruthy stripped then pure (all_text ++ [page_text])
        else pure all_text
      else pure all_text)
    []

/-! ## Reference classification dataset
(full.py lines 1262-1339) -/

/-- One `(code_ngp, designation)` row. -/
abbrev NgpRow := String × String

/-- The hard-coded rows returned by `search_ngp_codes` when the data store
raises (lines 1307-1311). -/
def defaultNgpRows : List NgpRow :=
  [("84159000", "Machines et appareils"),
   ("84799000", "Autres machines"),
   ("85437000", "Machines électriques")]

/-- The data store behind the two lookups: `some rows` is a successful query
answer (the SQL `LIKE` filter and `LIMIT` run in the store); `none` is a
connection or query failure. -/
def search_ngp_codes (db : Option (List NgpRow)) (search_term : String) :
    List NgpRow :=
  match db, search_term with
  | some rows, _ => rows
  | none, _ => defaultNgpRows

/-- `get_available_ngp_codes_for_ai` (lines 1314-1339): the rows on success,
the empty list on failure. -/
def get_available_ngp_codes_for_ai (db : Option (List NgpRow)) : List NgpRow :=
  match db with
  | some rows => rows
  | none => []

end OcrTrans

namespace OcrTrans

/-! ## Concrete inputs used by the claim theorems below -/

/-- Two zero-valued items under a header total of 300 (both items carry a
valid code and a designation, so no classification lookup fires). -/
def c2TwoZero : DraftInvoice :=
  { M_fe_valDev := some (Value.num 300),
    items := some
      [{ M_fl_Ngp := some (some "94039000"), M_fl_desig := some (some "A"),
         M_fl_valDev := some (Value.num 0) },
       { M_fl_Ngp := some (some "94039000"), M_fl_desig := some (some "B"),
         M_fl_valDev := some (Value.num 0) }] }

/-- One zero-valued item under a header total of 300. -/
def c2OneZero : DraftInvoice :=
  { M_fe_valDev := some (Value.num 300),
    items := some
      [{ M_fl_Ngp := some (some "94039000"), M_fl_desig := some (some "A"),
         M_fl_valDev := some (Value.num 0) }] }

/-- One item already valued 120 under a header total of 300. -/
def c2One120 : DraftInvoice :=
  { M_fe_valDev := some (Value.num 300),
    items := some
      [{ M_fl_Ngp := some (some "94039000"), M_fl_desig := some (some "A"),
         M_fl_valDev := some (Value.num 120) }] }

/-- A draft whose header total is the literal zero. -/
def zeroTotalDraft : DraftInvoice := { M_fe_valDev := some (Value.num 0) }

/-- A draft whose header total is a written-out amount (it contains the
number-word tokens of line 651). -/
def writtenTotalDraft : DraftInvoice :=
  { M_fe_valDev := some (Value.str "DEUX CENT SOIXANTE DEUX EUR 50 CTS") }

/-- A reply wrapping valid JSON in a fenced block with a leading `json` type
annotation and trailing stray backticks. -/
def c7Good : String := "```json\n\x7b\"M_fe_num\": \"FA1\"\x7d\n``` ``"

/-- A reply whose payload is syntactically broken JSON (unclosed object). -/
def c7Bad : String := "json \x7b\"a\": 1"

/-- A reasoning service that is down (non-200 on every request). -/
def envServiceDown : Env := { aiReply := fun _ => AiReply.httpError }

end OcrTrans

namespace OcrTrans

theorem validateOneItem_Ngp (hv : Value) (n : Nat) (prev : List Item) (idx : Nat)
    (it : Item) (rest : List Item) :
    (validateOneItem hv n prev idx it rest).M_fl_Ngp = it.M_fl_Ngp := by
  unfold validateOneItem
  split <;> (dsimp only; split <;> rfl)

theorem validateItemsAux_map_Ngp (hv : Value) (n : Nat) :
    ∀ (l prev : List Item) (idx : Nat),
      (validateItemsAux hv n prev idx l).map Item.M_fl_Ngp =
        prev.map Item.M_fl_Ngp ++ l.map Item.M_fl_Ngp := by
  intro l
  induction l with
  | nil => intro prev idx; simp [validateItemsAux]
  | cons it rest ih =>
      intro prev idx
      simp [validateItemsAux, ih, validateOneItem_Ngp]

theorem validateItems_map_Ngp (hv : Value) (l : List Item) :
    (validateItems hv l).map Item.M_fl_Ngp = l.map Item.M_fl_Ngp := by
  simp [validateItems, validateItemsAux_map_Ngp]

/-- Codes leaving the final validation pass: non-empty after stripping and
never a `N/A`/`NULL`/`NONE` marker. -/
theorem finalNgpPass_code_ok (l : List Item) (code : String)
    (h : code ∈ (finalNgpPass l).map Item.M_fl_Ngp) :
    pyStripStr code ≠ "" ∧
      (["N/A", "NULL", "NONE"].contains (pyUpperStr (pyStripStr code)) = false) := by
  simp only [finalNgpPass, List.map_map, List.mem_map, Function.comp] at h
  obtain ⟨it, -, hcode⟩ := h
  by_cases hc : pyStripStr it.M_fl_Ngp = "" ∨
      (["N/A", "NULL", "NONE", ""].contains (pyUpperStr (pyStripStr it.M_fl_Ngp)) = true)
  · rw [if_pos hc] at hcode
    rw [← hcode]
    dsimp only
    decide
  · rw [if_neg hc] at hcode
    rw [not_or] at hc
    rw [← hcode]
    refine ⟨hc.1, ?_⟩
    have h4 : (["N/A", "NULL", "NONE", ""].contains
        (pyUpperStr (pyStripStr it.M_fl_Ngp))) = false :=
      Bool.not_eq_true _ ▸ eq_false_of_ne_true hc.2
    simp only [List.contains_cons, List.contains_nil, Bool.or_eq_false_iff] at h4 ⊢
    tauto

/-- The item list of a reconciled record is the validated image of the
final-pass output (definitional identity on `post_process_invoice_data`). -/
theorem post_process_items_eq (env : Env) (draft : DraftInvoice) (md : Option Metadata) :
    (post_process_invoice_data env draft md).items =
      validateItems
        (coerceHeaderNumerics md
          (optVal draft.M_fe_Pnet (.num 0) (.num 0))
          (optVal draft.M_fe_Pbrute (.num 0) (.num 0))
          (optVal draft.M_fe_valDev (.num 0) (.num 0))).2.2
        (finalNgpPass (ngpAssignmentPhase env ((draft.items.getD []).map defaultItem))) := rfl

end OcrTrans

namespace OcrTrans

theorem setItemNgp_get?_ne (items : List Item) (idx i : Nat) (code : String)
    (h : idx ≠ i) : (setItemNgp items idx code).get? i = items.get? i := by
  unfold setItemNgp
  split
  · rfl
  · exact List.get?_set_ne _ _ h

theorem applyAiCodes_get? (items : List Item) (needing : List Nat)
    (cls : List Classification) (i : Nat) (h : ∀ j ∈ needing, j ≠ i) :
    (applyAiCodes items needing cls).get? i = items.get? i := by
  unfold applyAiCodes
  generalize cls.enum = l
  induction l generalizing items with
  | nil => rfl
  | cons p l2 ih =>
      rw [List.foldl_cons, ih]
      cases hg : needing.get? p.1 with
      | none => rfl
      | some idx =>
          have hidx : idx ∈ needing := List.get?_mem hg
          dsimp only
          split <;> exact setItemNgp_get?_ne _ _ _ _ (h idx hidx)

theorem itemsNeedingNgp_spec (l : List Item) (p : Nat × String)
    (hp : p ∈ itemsNeedingNgp l) :
    ∃ it, l.get? p.1 = some it ∧ itemNeedsNgp it = true := by
  unfold itemsNeedingNgp at hp
  obtain ⟨⟨i, it⟩, hmem, hfst⟩ := List.mem_map.mp hp
  obtain ⟨henum, hq⟩ := List.mem_filter.mp hmem
  have hget : l.get? i = some it := List.mem_enum_iff_get?.mp henum
  have hneed : itemNeedsNgp it = true := by
    have := of_decide_eq_true hq
    exact this.1
  subst hfst
  exact ⟨it, hget, hneed⟩

theorem ngpAssignmentPhase_get? (env : Env) (items : List Item) (i : Nat)
    (h : ∀ p ∈ itemsNeedingNgp items, p.1 ≠ i) :
    (ngpAssignmentPhase env items).get? i = items.get? i := by
  unfold ngpAssignmentPhase
  dsimp only
  split
  · rfl
  · apply applyAiCodes_get?
    intro j hj
    obtain ⟨p, hp, hpj⟩ := List.mem_map.mp hj
    rw [← hpj]
    exact h p hp

theorem pyUpperStr_ne_empty (s : String) (h : s ≠ "") : pyUpperStr s ≠ "" := by
  intro heq
  apply h
  have : (pyUpperStr s).data = ("" : String).data := by rw [heq]
  simp only [pyUpperStr, pyUpper] at this
  have hd : s.data = [] := List.map_eq_nil.mp this
  cases s
  simp_all

end OcrTrans

namespace OcrTrans

theorem validateItems_get?_Ngp (hv : Value) (l : List Item) (i : Nat) :
    ((validateItems hv l).get? i).map Item.M_fl_Ngp =
      (l.get? i).map Item.M_fl_Ngp := by
  have h := validateItems_map_Ngp hv l
  have h2 := congrArg (fun t => List.get? t i) h
  simpa only [List.get?_map] using h2

theorem finalNgpPass_get? (l : List Item) (i : Nat) :
    (finalNgpPass l).get? i = (l.get? i).map (fun it =>
      if pyStripStr it.M_fl_Ngp = "" ∨
         (["N/A", "NULL", "NONE", ""].contains (pyUpperStr (pyStripStr it.M_fl_Ngp)) = true) then
        { it with M_fl_Ngp := "94039000" }
      else it) := by
  simp [finalNgpPass, List.get?_map]

/-- Items that already carry a usable code are exactly those the collection
pass skips. -/
theorem defaultItem_not_needing (d : DraftItem) (c : String)
    (hc : d.M_fl_Ngp = some (some c))
    (h1 : pyStripStr c ≠ "") (h2 : pyStripStr c ≠ "CODE REQUIS") :
    itemNeedsNgp (defaultItem d) = false := by
  have hngp : (defaultItem d).M_fl_Ngp = c := by
    simp [defaultItem, hc, optStr]
  simp only [itemNeedsNgp, hngp]
  simp [h1, h2]

end OcrTrans

namespace OcrTrans

/-- C1 (corrected).  The final validation pass guarantees that no reconciled
item carries an empty or `N/A`/`NULL`/`NONE` classification code, whatever the
upstream lookup did; the claim's stronger reading — that no placeholder of any
kind survives — fails for the `CODE REQUIS` placeholder (see the
counterexample), which the final pass does not test for. -/
theorem c1_theorem (env : Env) (draft : DraftInvoice) (md : Option Metadata)
    (code : String)
    (h : code ∈ (post_process_invoice_data env draft md).items.map Item.M_fl_Ngp) :
    pyStripStr code ≠ "" ∧
      (["N/A", "NULL", "NONE"].contains (pyUpperStr (pyStripStr code)) = false) := by
  rw [post_process_items_eq, validateItems_map_Ngp] at h
  exact finalNgpPass_code_ok _ _ h

/-- Witness for C1: on a draft with one all-defaults item, the reconciled code
is the generic default `94039000`, and the theorem applies to it. -/
theorem c1_theorem_witness :
    "94039000" ∈ (post_process_invoice_data envServiceDown
        { items := some [{}] } none).items.map Item.M_fl_Ngp ∧
      (pyStripStr "94039000" ≠ "" ∧
        (["N/A", "NULL", "NONE"].contains (pyUpperStr (pyStripStr "94039000")) = false)) :=
  ⟨by decide, c1_theorem envServiceDown { items := some [{}] } none "94039000" (by decide)⟩

/-- Counterexample to C1 as claimed: an item whose code is the `CODE REQUIS`
placeholder and whose designation is empty is skipped by the collection pass
(no description to classify) and missed by the final pass (which only tests
for the empty and `N/A`/`NULL`/`NONE` markers), so the placeholder survives
reconciliation unchanged. -/
theorem c1_counterexample :
    (post_process_invoice_data envServiceDown
        { items := some [{ M_fl_Ngp := some (some "CODE REQUIS") }] } none).items.map
      Item.M_fl_Ngp = ["CODE REQUIS"] := by decide

/-- C2 (code_bug).  Of the claimed distribution law, only the single-item
scenarios hold: with a header total of 300 and two items both valued 0 the
output is `[150, 0]`, not `[150, 150]` — the `all_items_zero` re-scan of the
second iteration sees the first item already mutated to 150 and skips the
distribution — while one item valued 0 becomes 300 and one valued 120 stays
120. -/
theorem c2_theorem :
    ((post_process_invoice_data envServiceDown c2TwoZero none).items.map
        Item.M_fl_valDev = [Value.num 150, Value.num 0]) ∧
      ((post_process_invoice_data envServiceDown c2OneZero none).items.map
        Item.M_fl_valDev = [Value.num 300]) ∧
      ((post_process_invoice_data envServiceDown c2One120 none).items.map
        Item.M_fl_valDev = [Value.num 120]) := by
  refine ⟨by decide, by decide, by decide⟩

/-- C6 (corrected).  `clean_text` is total by construction but not idempotent
(see the counterexample); on the counterexample's orbit a third application
changes nothing more, and a text already in structured form is a fixed
point. -/
theorem c6_theorem :
    clean_text (clean_text (clean_text "A1 80.894,20")) =
        clean_text (clean_text "A1 80.894,20") ∧
      clean_text "TOTAL\nTTC\n180.894,20" = "TOTAL\nTTC\n180.894,20" := by
  refine ⟨by decide, by decide⟩

/-- Counterexample to C6: re-running the structurer on its own output splits
once more.  `clean_text "A1 80.894,20"` is `"A180.894,20"` (the
item-separation passes merge the run), and a second application breaks that
output into `"A\n180.894,20"`. -/
theorem c6_counterexample :
    clean_text (clean_text "A1 80.894,20") ≠ clean_text "A1 80.894,20" := by decide

/-- C7 (confirmed).  A reply wrapping valid JSON in a fenced block with a
leading type annotation and trailing stray backticks decodes successfully
whatever the lenient decoder does; and a reply that defeats all three
attempts — strict decode, strict decode after cleaning, lenient decode —
yields the malformed outcome carrying the extracted payload for diagnostics
(the upload handler raises it into an HTTP 500 without retrying). -/
theorem c7_theorem (demjson3_available : Bool) (lenient : String → Option Json)
    (reply : String)
    (h1 : json_loads (extract_json_block reply) = none)
    (h2 : json_loads (cleanJsonString (extract_json_block reply)) = none)
    (h3 : demjson3_available = true →
      lenient (cleanJsonString (extract_json_block reply)) = none) :
    parse_llama_reply demjson3_available lenient reply =
        .malformed (extract_json_block reply) ∧
      parse_llama_reply demjson3_available lenient c7Good =
        .ok (Json.obj [("M_fe_num", Json.str "FA1")]) := by
  constructor
  · unfold parse_llama_reply
    dsimp only
    rw [h1, h2]
    cases demjson3_available with
    | false => rfl
    | true => rw [h3 rfl]; rfl
  · rfl

/-- Witness for C7: the unclosed-object reply defeats all three attempts and
surfaces as the malformed outcome with its payload preserved. -/
theorem c7_theorem_witness :
    parse_llama_reply true (fun _ => none) c7Bad =
        .malformed (extract_json_block c7Bad) ∧
      parse_llama_reply true (fun _ => none) c7Good =
        .ok (Json.obj [("M_fe_num", Json.str "FA1")]) :=
  c7_theorem true (fun _ => none) c7Bad rfl rfl (fun _ => rfl)

/-- C8 (code_bug).  The claimed skip-and-continue never happens: on every
non-empty page list — even when every page OCRs to non-empty text — the loop
raises `AttributeError` at its first iteration, because
`CustomOCR.extract_text` returns the tuple `(text, confidence)` and the loop
calls `.strip()` on that tuple; the enclosing handler re-raises, aborting the
whole extraction. -/
theorem c8_theorem (p : String × ℚ) (ps : List (String × ℚ)) :
    pdf_pages_loop (p :: ps) = .error .attributeError := by
  unfold pdf_pages_loop
  rw [List.foldlM_cons]
  rfl

/-- C9 (corrected).  Neither dataset lookup can raise (both catch every data
store failure), and `get_available_ngp_codes_for_ai` does return the empty
list when the store is unavailable; but `search_ngp_codes` returns three
hard-coded fallback rows on unavailability, not the empty list the claim
states. -/
theorem c9_theorem (search_term : String) :
    search_ngp_codes none search_term = defaultNgpRows ∧
      get_available_ngp_codes_for_ai none = [] :=
  ⟨rfl, rfl⟩

/-- Counterexample to C9 as claimed: with the data store unavailable, the
search returns the three hard-coded rows — a non-empty list. -/
theorem c9_counterexample :
    search_ngp_codes none "machine" = defaultNgpRows ∧ defaultNgpRows ≠ [] := by
  refine ⟨rfl, by decide⟩

/-- C10 (corrected).  An item whose code is non-empty and differs from the
`CODE REQUIS` placeholder after stripping is not collected for the AI lookup;
and provided the code is additionally not one of the `N/A`/`NULL`/`NONE`
markers — the restriction the claim omits — the final pass leaves it
unchanged too, even when it is not a well-formed 8-digit code. -/
theorem c10_theorem (env : Env) (draft : DraftInvoice) (md : Option Metadata)
    (i : Nat) (d : DraftItem) (c : String)
    (hd : (draft.items.getD []).get? i = some d)
    (hc : d.M_fl_Ngp = some (some c))
    (h1 : pyStripStr c ≠ "")
    (h2 : pyStripStr c ≠ "CODE REQUIS")
    (h3 : (["N/A", "NULL", "NONE"].contains (pyUpperStr (pyStripStr c)) = false)) :
    ((post_process_invoice_data env draft md).items.get? i).map Item.M_fl_Ngp = some c ∧
      ∀ p ∈ itemsNeedingNgp ((draft.items.getD []).map defaultItem), p.1 ≠ i := by
  set items0 := (draft.items.getD []).map defaultItem with hitems0
  have hget0 : items0.get? i = some (defaultItem d) := by
    rw [hitems0, List.get?_map, hd]; rfl
  have hngp : (defaultItem d).M_fl_Ngp = c := by
    simp [defaultItem, hc, optStr]
  have hnotneed : ∀ p ∈ itemsNeedingNgp items0, p.1 ≠ i := by
    intro p hp heq
    obtain ⟨it, hgetp, hneedp⟩ := itemsNeedingNgp_spec items0 p hp
    rw [heq, hget0] at hgetp
    cases hgetp
    rw [defaultItem_not_needing d c hc h1 h2] at hneedp
    exact Bool.false_ne_true hneedp
  refine ⟨?_, hnotneed⟩
  rw [post_process_items_eq, validateItems_get?_Ngp, finalNgpPass_get?,
      ngpAssignmentPhase_get? env items0 i hnotneed, hget0]
  have hcond : ¬(pyStripStr (defaultItem d).M_fl_Ngp = "" ∨
      (["N/A", "NULL", "NONE", ""].contains
        (pyUpperStr (pyStripStr (defaultItem d).M_fl_Ngp)) = true)) := by
    rw [hngp, not_or]
    refine ⟨h1, ?_⟩
    have h5 : pyUpperStr (pyStripStr c) ≠ "" := pyUpperStr_ne_empty _ h1
    simp only [List.contains_cons, List.contains_nil, Bool.or_eq_false_iff] at h3 ⊢
    simp_all
  rw [Option.map_map]
  simp only [Option.map, Function.comp, if_neg hcond]
  rw [hngp]

/-- Witness for C10: the malformed but non-placeholder code `ZZZ` survives
reconciliation untouched. -/
theorem c10_theorem_witness :
    ((post_process_invoice_data envServiceDown
        { items := some [{ M_fl_Ngp := some (some "ZZZ") }] } none).items.get? 0).map
      Item.M_fl_Ngp = some "ZZZ" ∧
      ∀ p ∈ itemsNeedingNgp
        ((({ items := some [{ M_fl_Ngp := some (some "ZZZ") }] } :
          DraftInvoice).items.getD []).map defaultItem), p.1 ≠ 0 :=
  c10_theorem envServiceDown { items := some [{ M_fl_Ngp := some (some "ZZZ") }] }
    none 0 { M_fl_Ngp := some (some "ZZZ") } "ZZZ"
    rfl rfl (by decide) (by decide) (by decide)

/-- Counterexample to C10 as claimed: the code `N/A` is non-empty and differs
from `CODE REQUIS` after stripping, yet the final pass rewrites it to the
generic default. -/
theorem c10_counterexample :
    (post_process_invoice_data envServiceDown
        { items := some [{ M_fl_Ngp := some (some "N/A") }] } none).items.map
      Item.M_fl_Ngp = ["94039000"] := by decide

end OcrTrans

namespace OcrTrans

/-! ## The best-total selection loop is a running maximum -/

theorem bestTotalStep_le (b : ℚ) (t : String) : b ≤ bestTotalStep b t := by
  unfold bestTotalStep
  cases candidateValue t with
  | none => exact le_refl b
  | some v =>
      dsimp only
      split
      · next h => exact le_of_lt h.2.2
      · exact le_refl b

theorem foldl_bestTotalStep_init_le (l : List String) :
    ∀ b : ℚ, b ≤ l.foldl bestTotalStep b := by
  induction l with
  | nil => intro b; exact le_refl b
  | cons t l2 ih =>
      intro b
      rw [List.foldl_cons]
      exact le_trans (bestTotalStep_le b t) (ih _)

theorem le_foldl_bestTotalStep (t : String) (v : ℚ)
    (hv : candidateValue t = some v) (h1 : 50 ≤ v) (h2 : v ≤ 50000) :
    ∀ (l : List String) (b : ℚ), t ∈ l → v ≤ l.foldl bestTotalStep b := by
  intro l
  induction l with
  | nil => intro b h; cases h
  | cons u l2 ih =>
      intro b hmem
      rw [List.foldl_cons]
      rcases List.mem_cons.mp hmem with h | h
      · subst h
        refine le_trans ?_ (foldl_bestTotalStep_init_le l2 _)
        unfold bestTotalStep
        rw [hv]
        dsimp only
        split
        · exact le_refl v
        · next hn =>
            push_neg at hn
            exact hn h1 h2
      · exact ih _ h

theorem foldl_bestTotalStep_mem (l : List String) :
    ∀ b : ℚ, l.foldl bestTotalStep b = b ∨
      ∃ t ∈ l, candidateValue t = some (l.foldl bestTotalStep b) ∧
        50 ≤ l.foldl bestTotalStep b ∧ l.foldl bestTotalStep b ≤ 50000 := by
  induction l with
  | nil => intro b; exact Or.inl rfl
  | cons u l2 ih =>
      intro b
      rw [List.foldl_cons]
      rcases ih (bestTotalStep b u) with h | h
      · rw [h]
        unfold bestTotalStep
        cases hu : candidateValue u with
        | none => exact Or.inl rfl
        | some v =>
            dsimp only
            split
            · next hcond =>
                refine Or.inr ⟨u, List.mem_cons_self u l2, ?_, hcond.1, hcond.2.1⟩
                rw [hu]
            · exact Or.inl rfl
      · obtain ⟨t, ht, hres⟩ := h
        exact Or.inr ⟨t, List.mem_cons_of_mem u ht, hres⟩

/-- `bestTotal` is nonnegative on every candidate list. -/
theorem bestTotal_nonneg (totals : List String) : 0 ≤ bestTotal totals :=
  foldl_bestTotalStep_init_le totals 0

theorem bestTotal_cases (totals : List String) :
    bestTotal totals = 0 ∨
      ∃ t ∈ totals, candidateValue t = some (bestTotal totals) ∧
        50 ≤ bestTotal totals ∧ bestTotal totals ≤ 50000 :=
  foldl_bestTotalStep_mem totals 0

/-! ## Codes produced by the classification lookup -/

theorem validateClassification_code (j : Json) (c : Classification)
    (h : validateClassification j = .ok c) :
    c.ngp_code ≠ "" ∧ 6 ≤ c.ngp_code.length := by
  unfold validateClassification at h
  split at h
  · split at h
    · split at h
      · cases h
        dsimp only
        exact ⟨by decide, by decide⟩
      · next hcond =>
          cases h
          dsimp only
          push_neg at hcond
          exact ⟨hcond.1, hcond.2.1⟩
    · cases h
  · cases h

theorem validateClassifications_mem (elems : List Json)
    (cs : List Classification) (h : validateClassifications elems = .ok cs) :
    ∀ c ∈ cs, ∃ j, validateClassification j = .ok c := by
  induction elems generalizing cs with
  | nil =>
      unfold validateClassifications at h
      cases h
      intro c hc
      cases hc
  | cons j rest ih =>
      unfold validateClassifications at h
      cases hj : validateClassification j with
      | error e => rw [hj] at h; cases h
      | ok v =>
          rw [hj] at h
          cases hrest : validateClassifications rest with
          | error e => rw [hrest] at h; cases h
          | ok vs =>
              rw [hrest] at h
              cases h
              intro c hc
              rcases List.mem_cons.mp hc with hcv | hcv
              · exact ⟨j, by rw [hcv]; exact hj⟩
              · exact ih vs hrest c hcv

theorem fallback_code (descs : List String) (reason src : String)
    (c : Classification) (hc : c ∈ fallbackClassifications descs reason src) :
    c.ngp_code = "94039000" := by
  unfold fallbackClassifications at hc
  obtain ⟨d, -, hd⟩ := List.mem_map.mp hc
  rw [← hd]
  rfl

end OcrTrans

namespace OcrTrans

/-- C5 (corrected).  Every classification the lookup returns — on the
successful path or any of its fallbacks — carries a non-empty code of at
least 6 characters; but nothing enforces the claimed 8-digit shape: the
per-element validation only rejects empty, short and marker codes, and the
final reconciliation pass lets any non-marker code through (see the
counterexample, where a 3-letter code survives). -/
theorem c5_theorem (env : Env) (descs : List String) (c : Classification)
    (hc : c ∈ find_ngp_codes_with_ai env descs) :
    c.ngp_code ≠ "" ∧ 6 ≤ c.ngp_code.length := by
  unfold find_ngp_codes_with_ai at hc
  have fb : ∀ (reason src : String),
      c ∈ fallbackClassifications descs reason src →
      c.ngp_code ≠ "" ∧ 6 ≤ c.ngp_code.length := by
    intro reason src hm
    rw [fallback_code descs reason src c hm]
    exact ⟨by decide, by decide⟩
  split at hc
  · exact fb _ _ hc
  · exact fb _ _ hc
  · dsimp only at hc
    split at hc
    · exact fb _ _ hc
    · split at hc
      · split at hc
        · split at hc
          · next hcs =>
              obtain ⟨j, hj⟩ := validateClassifications_mem _ _ hcs c hc
              exact validateClassification_code j c hj
          · exact fb _ _ hc
        · exact fb _ _ hc
      · exact fb _ _ hc

end OcrTrans

namespace OcrTrans

/-- Witness for C5: with the reasoning service down, the lookup returns the
API-fallback default classification, whose code is `94039000`. -/
theorem c5_theorem_witness :
    defaultClassification "x" "Code par défaut - API indisponible" "api_fallback" ∈
        find_ngp_codes_with_ai envServiceDown ["x"] ∧
      ((defaultClassification "x" "Code par défaut - API indisponible"
          "api_fallback").ngp_code ≠ "" ∧
        6 ≤ (defaultClassification "x" "Code par défaut - API indisponible"
          "api_fallback").ngp_code.length) :=
  ⟨by decide, c5_theorem envServiceDown ["x"] _ (by decide)⟩

/-- Counterexample to C5 as claimed: the 3-letter code `EUR` — neither empty
nor a marker — survives reconciliation although it is not an 8-digit code. -/
theorem c5_counterexample :
    ((post_process_invoice_data envServiceDown
        { items := some [{ M_fl_Ngp := some (some "EUR") }] } none).items.map
      Item.M_fl_Ngp = ["EUR"]) ∧ ("EUR".length ≠ 8) := by
  refine ⟨by decide, by decide⟩

/-- C4 (corrected).  When the draft total is zero or a written-out amount,
the adopted header total is `bestTotal` of the metadata candidates — a
running maximum over the candidates that parse as floats (after comma→dot
substitution) into the fixed range `[50, 50000]`, hence the highest in-range
candidate whenever one exists — and under either draft kind the scenario
inputs `TOTAL : 262.50` and a text with no total pattern adopt `262.50` and
`0.0` as claimed.  But `Montant TTC 180.894,20` adopts `894.20` (= 4471/5)
under either draft kind, not `180894.20`: the structurer leaves the text
intact as `TOTAL\nTTC\n180.894,20`, and the mining patterns' digit-count
caps fragment the amount into the candidates `180.89` and `894,20`, of which
the best in range is 894.20 (see the counterexample). -/
theorem c4_theorem (totals : List String) (t : String) (v : ℚ)
    (ht : t ∈ totals) (hv : candidateValue t = some v)
    (h1 : 50 ≤ v) (h2 : v ≤ 50000) :
    (v ≤ bestTotal totals ∧
      ∃ u ∈ totals, candidateValue u = some (bestTotal totals) ∧
        50 ≤ bestTotal totals ∧ bestTotal totals ≤ 50000) ∧
      (pipeline_adopted_total envServiceDown zeroTotalDraft "TOTAL : 262.50" =
          Value.num (mkRat 525 2) ∧
        pipeline_adopted_total envServiceDown writtenTotalDraft "TOTAL : 262.50" =
          Value.num (mkRat 525 2)) ∧
      (pipeline_adopted_total envServiceDown zeroTotalDraft "hello world" =
          Value.num 0 ∧
        pipeline_adopted_total envServiceDown writtenTotalDraft "hello world" =
          Value.num 0) := by
  have hle : v ≤ bestTotal totals := le_foldl_bestTotalStep t v hv h1 h2 totals 0 ht
  refine ⟨⟨hle, ?_⟩, ⟨by decide, by decide⟩, by decide, by decide⟩
  rcases bestTotal_cases totals with h0 | h
  · rw [h0] at hle
    exact absurd (le_trans h1 hle) (by decide)
  · exact h

/-- Witness for C4: the candidate list `["262.50", "9"]` has the in-range
candidate `262.50`, which is the selected best total. -/
theorem c4_theorem_witness :
    ((mkRat 525 2 : ℚ) ≤ bestTotal ["262.50", "9"] ∧
      ∃ u ∈ ["262.50", "9"], candidateValue u = some (bestTotal ["262.50", "9"]) ∧
        50 ≤ bestTotal ["262.50", "9"] ∧ bestTotal ["262.50", "9"] ≤ 50000) ∧
      (pipeline_adopted_total envServiceDown zeroTotalDraft "TOTAL : 262.50" =
          Value.num (mkRat 525 2) ∧
        pipeline_adopted_total envServiceDown writtenTotalDraft "TOTAL : 262.50" =
          Value.num (mkRat 525 2)) ∧
      (pipeline_adopted_total envServiceDown zeroTotalDraft "hello world" =
          Value.num 0 ∧
        pipeline_adopted_total envServiceDown writtenTotalDraft "hello world" =
          Value.num 0) :=
  c4_theorem ["262.50", "9"] "262.50" (mkRat 525 2) (by decide) (by decide)
    (by decide) (by decide)

/-- Counterexample to C4 as claimed: `Montant TTC 180.894,20` adopts 894.20 —
under the zero draft and the written-out-amount draft alike — not the claimed
180894.20.  The mined candidate list records the mechanism: the text reaches
the miner intact, and the patterns' digit caps produce the fragments
`180.89` and `894,20`. -/
theorem c4_counterexample :
    pipeline_adopted_total envServiceDown zeroTotalDraft "Montant TTC 180.894,20" =
        Value.num (mkRat 4471 5) ∧
      pipeline_adopted_total envServiceDown writtenTotalDraft "Montant TTC 180.894,20" =
        Value.num (mkRat 4471 5) ∧
      (extract_invoice_metadata (clean_text "Montant TTC 180.894,20")).potential_totals =
        ["180.89", "894,20", "180.89"] ∧
      (mkRat 4471 5 : ℚ) ≠ mkRat 904471 5 := by
  refine ⟨by decide, by decide, by decide, by decide⟩

end OcrTrans

namespace OcrTrans

/-! ## Nonnegativity of the parsed number runs -/

theorem dropWhile_of_all_neg (p : Char → Bool) (l : List Char)
    (h : ∀ c ∈ l, p c = false) : l.dropWhile p = l := by
  cases l with
  | nil => rfl
  | cons c r =>
      rw [List.dropWhile_cons]
      simp [h c (List.mem_cons_self c r)]

theorem pyStrip_of_no_space (l : List Char) (h : ∀ c ∈ l, isPySpace c = false) :
    pyStrip l = l := by
  unfold pyStrip
  rw [dropWhile_of_all_neg _ _ h,
      dropWhile_of_all_neg _ _ (fun c hc => h c (List.mem_reverse.mp hc))]
  exact List.reverse_reverse l

theorem ratOfDecimal_nonneg (ip fp : List Char) (esgn : Int) (ed : Nat) :
    0 ≤ ratOfDecimal 1 ip fp esgn ed := by
  unfold ratOfDecimal
  have hnum : (0 : Int) ≤
      1 * ((digitsToNat ip * 10 ^ fp.length + digitsToNat fp : Nat) : Int) := by
    positivity
  split
  · rw [Rat.mkRat_eq_div]
    apply div_nonneg
    · exact_mod_cast mul_nonneg hnum (Int.natCast_nonneg _)
    · positivity
  · rw [Rat.mkRat_eq_div]
    apply div_nonneg
    · exact_mod_cast hnum
    · positivity

theorem findNumRunsAux_chars : ∀ (fuel : Nat) (s : List Char) (r : List Char),
    r ∈ findNumRunsAux fuel s → ∀ c ∈ r, isNumRunCh c = true := by
  intro fuel
  induction fuel with
  | zero => intro s r h; cases h
  | succ n ih =>
      intro s r h
      cases s with
      | nil => cases h
      | cons c0 rest =>
          unfold findNumRunsAux at h
          by_cases h0 : isNumRunCh c0 = true
          · rw [if_pos h0] at h
            rcases List.mem_cons.mp h with hr | hr
            · subst hr
              intro c hc
              rcases List.mem_cons.mp hc with hc1 | hc2
              · rw [hc1]; exact h0
              · exact List.mem_takeWhile_imp hc2
            · exact ih _ _ hr
          · rw [if_neg h0] at h
            exact ih _ _ h

theorem findNumRuns_chars (s : List Char) (r : List Char)
    (h : r ∈ findNumRuns s) : ∀ c ∈ r, isNumRunCh c = true :=
  findNumRunsAux_chars _ s r h

theorem numRunCh_not_space (c : Char) (h : isNumRunCh c = true) :
    isPySpace c = false := by
  rcases of_decide_eq_true h with hd | hdot
  · have hd2 : '0' ≤ c ∧ c ≤ '9' := of_decide_eq_true hd
    apply decide_eq_false
    intro hsp
    rcases hsp with h | h | h | h | h | h <;> (rw [h] at hd2; exact absurd hd2.1 (by decide))
  · rw [hdot]; decide

theorem dropWhile_head_not (p : Char → Bool) :
    ∀ (l : List Char) (c : Char) (r : List Char),
      l.dropWhile p = c :: r → p c = false := by
  intro l
  induction l with
  | nil => intro c r h; cases h
  | cons a t ih =>
      intro c r h
      rw [List.dropWhile_cons] at h
      by_cases ha : p a = true
      · rw [if_pos ha] at h; exact ih c r h
      · rw [if_neg ha] at h
        cases h
        exact eq_false_of_ne_true ha

theorem pyFloat_nonneg (l : List Char) (hall : ∀ c ∈ l, isNumRunCh c = true)
    (q : ℚ) (h : pyFloat (String.mk l) = some q) : 0 ≤ q := by
  unfold pyFloat at h
  rw [show (String.mk l).data = l from rfl] at h
  rw [pyStrip_of_no_space l (fun c hc => numRunCh_not_space c (hall c hc))] at h
  have hnotsign : l.headD ' ' ≠ '-' ∧ l.headD ' ' ≠ '+' := by
    cases l with
    | nil => exact ⟨by decide, by decide⟩
    | cons c r =>
        have hc := hall c (List.mem_cons_self c r)
        rw [List.headD_cons]
        constructor <;> (intro heq; rw [heq] at hc; exact absurd hc (by decide))
  dsimp only at h
  rw [if_neg hnotsign.1, if_neg (not_or.mpr hnotsign)] at h
  have hmem_drop : ∀ c ∈ l.dropWhile isDigitCh, c ∈ l :=
    fun c hc => (List.dropWhile_sublist isDigitCh).mem hc
  have hmem_tail : ∀ c ∈ (l.dropWhile isDigitCh).tail, c ∈ l :=
    fun c hc => hmem_drop c (List.tail_sublist _ |>.mem hc)
  by_cases hdot : (l.dropWhile isDigitCh).headD ' ' = '.'
  · simp only [if_pos hdot] at h
    cases hs : (l.dropWhile isDigitCh).tail.dropWhile isDigitCh with
    | nil =>
        rw [hs] at h
        dsimp only at h
        split at h
        · cases h
        · cases h
          exact ratOfDecimal_nonneg _ _ _ _
    | cons e r2 =>
        have herun : isNumRunCh e = true :=
          hall e (hmem_tail e ((List.dropWhile_sublist isDigitCh).mem
            (by rw [hs]; exact List.mem_cons_self e r2)))
        have hene : e ≠ 'e' ∧ e ≠ 'E' := by
          constructor <;> (intro heq; rw [heq] at herun; exact absurd herun (by decide))
        rw [hs] at h
        dsimp only at h
        split at h
        · cases h
        · rw [if_neg (not_or.mpr hene)] at h
          cases h
  · simp only [if_neg hdot] at h
    cases hd : l.dropWhile isDigitCh with
    | nil =>
        rw [hd] at h
        dsimp only at h
        split at h
        · cases h
        · cases h
          exact ratOfDecimal_nonneg _ _ _ _
    | cons c1 r1 =>
        exfalso
        have hc1run : isNumRunCh c1 = true :=
          hall c1 (hmem_drop c1 (by rw [hd]; exact List.mem_cons_self c1 r1))
        have hc1nd : isDigitCh c1 = false := dropWhile_head_not isDigitCh l c1 r1 hd
        have hc1dot : c1 = '.' := by
          rcases of_decide_eq_true hc1run with hdig | hdot2
          · rw [hc1nd] at hdig; cases hdig
          · exact hdot2
        rw [hd, List.headD_cons] at hdot
        exact hdot hc1dot

end OcrTrans

namespace OcrTrans

/-! ## The header numeric coercions preserve nonnegativity -/

theorem coerceWeight_nonneg (v : Value) (hw : ∀ q : ℚ, v = .num q → 0 ≤ q)
    (r : ℚ) (h : coerceWeight v = .ok r) : 0 ≤ r := by
  unfold coerceWeight at h
  cases v with
  | str s =>
      try dsimp only at h
      cases hruns : findNumRuns (stripWeightStr s) with
      | nil =>
          rw [hruns] at h
          cases h
          exact le_refl 0
      | cons n rest =>
          rw [hruns] at h
          try dsimp only at h
          cases hq : pyFloat (String.mk n) with
          | none => rw [hq] at h; cases h
          | some q =>
              rw [hq] at h
              cases h
              exact pyFloat_nonneg n
                (findNumRuns_chars _ n (by rw [hruns]; exact List.mem_cons_self n rest)) _ hq
  | num q =>
      cases h
      exact hw _ rfl
  | bool b =>
      cases h
      cases b <;> decide
  | null => cases h

theorem coerceValDev_num (md : Option Metadata) (v : Value)
    (hv : ∀ q : ℚ, v = .num q → 0 ≤ q) (hb : v ≠ .bool true)
    (w : Value) (h : coerceValDev md v = .ok w) :
    ∃ c : ℚ, w = .num c ∧ 0 ≤ c := by
  have hbt : ∀ m, ∃ c : ℚ,
      Value.num (if 0 < bestTotal m then bestTotal m else 0) = Value.num c ∧ 0 ≤ c := by
    intro m
    refine ⟨_, rfl, ?_⟩
    split
    · exact bestTotal_nonneg m
    · exact le_refl 0
  unfold coerceValDev at h
  cases v with
  | str s =>
      try dsimp only at h
      split at h
      · cases md with
        | some m =>
            try dsimp only at h
            split at h
            · cases h
              exact ⟨0, rfl, le_refl 0⟩
            · cases h
              exact hbt m.potential_totals
        | none =>
            cases h
            exact ⟨0, rfl, le_refl 0⟩
      · cases hruns : findNumRuns (strReplace (strReplace s.data [','] ['.']) [' '] []) with
        | nil =>
            rw [hruns] at h
            cases h
            exact ⟨0, rfl, le_refl 0⟩
        | cons n rest =>
            rw [hruns] at h
            try dsimp only at h
            cases hq : pyFloat (String.mk n) with
            | none => rw [hq] at h; cases h
            | some q =>
                rw [hq] at h
                cases h
                exact ⟨_, rfl, pyFloat_nonneg n
                  (findNumRuns_chars _ n (by rw [hruns]; exact List.mem_cons_self n rest)) _ hq⟩
  | num q =>
      try dsimp only at h
      split at h
      · cases md with
        | some m =>
            try dsimp only at h
            split at h
            · cases h
              exact ⟨q, rfl, hv q rfl⟩
            · cases h
              exact hbt m.potential_totals
        | none =>
            cases h
            exact ⟨q, rfl, hv q rfl⟩
      · cases h
        exact ⟨q, rfl, hv q rfl⟩
  | bool b =>
      cases b with
      | true => exact absurd rfl hb
      | false =>
          try dsimp only at h
          rw [if_pos (Or.inr (by decide))] at h
          cases md with
          | some m =>
              try dsimp only at h
              split at h
              · cases h
                exact ⟨0, rfl, le_refl 0⟩
              · cases h
                exact hbt m.potential_totals
          | none =>
              cases h
              exact ⟨0, rfl, le_refl 0⟩
  | null =>
      try dsimp only at h
      rw [if_pos (Or.inl rfl)] at h
      cases md with
      | some m =>
          try dsimp only at h
          split at h
          · cases h
          · cases h
            exact hbt m.potential_totals
      | none => cases h

theorem coerceHeaderNumerics_nonneg (md : Option Metadata) (p0 b0 v0 : Value)
    (hp : ∀ q : ℚ, p0 = .num q → 0 ≤ q) (hb : ∀ q : ℚ, b0 = .num q → 0 ≤ q)
    (hv : ∀ q : ℚ, v0 = .num q → 0 ≤ q) (hvb : v0 ≠ .bool true) :
    (∃ a : ℚ, 0 ≤ a ∧ (coerceHeaderNumerics md p0 b0 v0).1 = Value.num a) ∧
      (∃ b : ℚ, 0 ≤ b ∧ (coerceHeaderNumerics md p0 b0 v0).2.1 = Value.num b) ∧
      (∃ c : ℚ, 0 ≤ c ∧ (coerceHeaderNumerics md p0 b0 v0).2.2 = Value.num c) := by
  unfold coerceHeaderNumerics
  dsimp only
  cases hcp : coerceWeight p0 with
  | error e =>
      exact ⟨⟨0, le_refl 0, rfl⟩, ⟨0, le_refl 0, rfl⟩, ⟨0, le_refl 0, rfl⟩⟩
  | ok p =>
      cases hcb : coerceWeight b0 with
      | error e =>
          exact ⟨⟨0, le_refl 0, rfl⟩, ⟨0, le_refl 0, rfl⟩, ⟨0, le_refl 0, rfl⟩⟩
      | ok b =>
          cases hcv : coerceValDev md v0 with
          | error e =>
              exact ⟨⟨0, le_refl 0, rfl⟩, ⟨0, le_refl 0, rfl⟩, ⟨0, le_refl 0, rfl⟩⟩
          | ok w =>
              obtain ⟨c, hwc, hc⟩ := coerceValDev_num md v0 hv hvb w hcv
              exact ⟨⟨p, coerceWeight_nonneg p0 hp p hcp, rfl⟩,
                ⟨b, coerceWeight_nonneg b0 hb b hcb, rfl⟩,
                ⟨c, hc, hwc⟩⟩

theorem optVal_num_bound (f : Option Value)
    (hf : ∀ q : ℚ, f = some (.num q) → 0 ≤ q) :
    ∀ q : ℚ, optVal f (.num 0) (.num 0) = .num q → 0 ≤ q := by
  intro q h
  cases f with
  | none =>
      unfold optVal at h
      cases h
      exact le_refl 0
  | some v =>
      cases v with
      | null =>
          unfold optVal at h
          cases h
          exact le_refl 0
      | num p =>
          unfold optVal at h
          cases h
          exact hf q rfl
      | bool b => unfold optVal at h; cases h
      | str s => unfold optVal at h; cases h

theorem optVal_ne_bool_true (f : Option Value) (hf : f ≠ some (.bool true)) :
    optVal f (.num 0) (.num 0) ≠ .bool true := by
  intro h
  cases f with
  | none => unfold optVal at h; cases h
  | some v =>
      cases v with
      | null => unfold optVal at h; cases h
      | num p => unfold optVal at h; cases h
      | str s => unfold optVal at h; cases h
      | bool b =>
          unfold optVal at h
          cases h
          exact hf rfl

end OcrTrans

namespace OcrTrans

/-- C3 (corrected).  After reconciliation the three numeric header fields are
float-typed and nonnegative for textual, null and written-out draft values;
but a draft that carries a negative number passes through unchanged (the
coercions parse and default, they never clamp — see the counterexample), so
the guarantee needs the draft's already-numeric values to be nonnegative, and
the claimed float type needs the draft total not to be the boolean `True`,
which the zero-test lets through verbatim. -/
theorem c3_theorem (env : Env) (draft : DraftInvoice) (md : Option Metadata)
    (h1 : ∀ q : ℚ, draft.M_fe_Pnet = some (Value.num q) → 0 ≤ q)
    (h2 : ∀ q : ℚ, draft.M_fe_Pbrute = some (Value.num q) → 0 ≤ q)
    (h3 : ∀ q : ℚ, draft.M_fe_valDev = some (Value.num q) → 0 ≤ q)
    (h4 : draft.M_fe_valDev ≠ some (Value.bool true)) :
    (∃ a : ℚ, 0 ≤ a ∧
      (post_process_invoice_data env draft md).M_fe_Pnet = Value.num a) ∧
      (∃ b : ℚ, 0 ≤ b ∧
        (post_process_invoice_data env draft md).M_fe_Pbrute = Value.num b) ∧
      (∃ c : ℚ, 0 ≤ c ∧
        (post_process_invoice_data env draft md).M_fe_valDev = Value.num c) :=
  coerceHeaderNumerics_nonneg md _ _ _
    (optVal_num_bound _ h1) (optVal_num_bound _ h2) (optVal_num_bound _ h3)
    (optVal_ne_bool_true _ h4)

/-- Witness for C3: a draft whose weights are a `KGS`-suffixed string and an
absent field and whose total is a written-out amount, with one in-range
metadata candidate, reconciles to nonnegative numbers. -/
theorem c3_theorem_witness :
    (∃ a : ℚ, 0 ≤ a ∧
      (post_process_invoice_data envServiceDown
        { M_fe_Pnet := some (Value.str "12.5 KGS"),
          M_fe_valDev := some (Value.str "DEUX CENT SOIXANTE DEUX EUR 50 CTS") }
        (some { potential_totals := ["262.50"],
                potential_currencies := [] })).M_fe_Pnet = Value.num a) ∧
      (∃ b : ℚ, 0 ≤ b ∧
        (post_process_invoice_data envServiceDown
          { M_fe_Pnet := some (Value.str "12.5 KGS"),
            M_fe_valDev := some (Value.str "DEUX CENT SOIXANTE DEUX EUR 50 CTS") }
          (some { potential_totals := ["262.50"],
                  potential_currencies := [] })).M_fe_Pbrute = Value.num b) ∧
      (∃ c : ℚ, 0 ≤ c ∧
        (post_process_invoice_data envServiceDown
          { M_fe_Pnet := some (Value.str "12.5 KGS"),
            M_fe_valDev := some (Value.str "DEUX CENT SOIXANTE DEUX EUR 50 CTS") }
          (some { potential_totals := ["262.50"],
                  potential_currencies := [] })).M_fe_valDev = Value.num c) :=
  c3_theorem envServiceDown
    { M_fe_Pnet := some (Value.str "12.5 KGS"),
      M_fe_valDev := some (Value.str "DEUX CENT SOIXANTE DEUX EUR 50 CTS") }
    (some { potential_totals := ["262.50"], potential_currencies := [] })
    (by intro q h; cases h) (by intro q h; cases h) (by intro q h; cases h)
    (by intro h; cases h)

/-- Counterexample to C3 as claimed: a draft net weight of −5 survives
reconciliation as the negative −5.0. -/
theorem c3_counterexample :
    (post_process_invoice_data envServiceDown
      { M_fe_Pnet := some (Value.num (-5)) } none).M_fe_Pnet = Value.num (-5) ∧
      ¬(0 ≤ (-5 : ℚ)) := by
  refine ⟨by decide, by decide⟩

end OcrTrans
